import Mathlib

/-!
# Verification of `AllPlot.cpp` (GoldenCheetah ride plot)

A shallow embedding of the data-handling logic of `src/AllPlot.cpp`:
the `setData` loading/conversion pass, the `recalc` causal moving-average
smoother with its per-second re-binning, interval-marker construction,
the `setYMax` axis derivation, `setXTitle`, power-zone background shading
(`AllPlotBackground::draw`, `AllPlot::shadeZones`, `AllPlot::showPower`).

C++ `double` values are modelled as `ℚ` (the code performs only field
arithmetic on them), C++ `int` as `ℤ`.  `QVector<double>(n)` is modelled as a
zero-initialised list that the loops extend index by index.
-/

namespace AllPlot

/-- One raw data point of a ride file (`RideFilePoint`): the fields read by
`AllPlot::setData`. -/
structure RideFilePoint where
  secs : ℚ
  watts : ℚ
  hr : ℚ
  kph : ℚ
  cad : ℚ
  alt : ℚ
  km : ℚ
  interval : ℤ
deriving Repr, DecidableEq

/-- The per-channel presence flags of a ride (`RideFileDataPresent`). -/
structure RideFileDataPresent where
  watts : Bool
  hr : Bool
  kph : Bool
  cad : Bool
  alt : Bool
deriving Repr, DecidableEq

/-- The part of a `RideFile` that `AllPlot::setData` reads: the formatted
start time, the presence flags and the data points. -/
structure RideFile where
  startTimeString : String
  dataPresent : RideFileDataPresent
  points : List RideFilePoint
deriving Repr, DecidableEq

/-- `static inline double max(double a, double b)` from `AllPlot.cpp`. -/
def maxRat (a b : ℚ) : ℚ := if a > b then a else b

/-- `#define MILES_PER_KM 0.62137119` -/
def MILES_PER_KM : ℚ := 62137119 / 100000000

/-- `#define FEET_PER_M 3.2808399` -/
def FEET_PER_M : ℚ := 32808399 / 10000000

/-- The values written at one index of the parallel arrays by the body of the
loading loop in `AllPlot::setData` (time, clamped/converted channel values,
distance and interval number for one `RideFilePoint`). -/
structure ConvPoint where
  time : ℚ
  watts : ℚ
  hr : ℚ
  speed : ℚ
  cad : ℚ
  alt : ℚ
  dist : ℚ
  inter : ℤ
deriving Repr, DecidableEq

/-- The body of the loading loop of `AllPlot::setData` for one point:
`timeArray[len] = point->secs; wattsArray[len] = max(0, point->watts); ...`
with the metric/imperial conversion of speed, altitude and distance.
For a channel whose array is empty, the write is skipped in the C++; the
field here is still computed but the array projection below discards it. -/
def convertPoint (useMetricUnits : Bool) (p : RideFilePoint) : ConvPoint :=
  { time := p.secs
    watts := maxRat 0 p.watts
    hr := maxRat 0 p.hr
    speed := maxRat 0 (if useMetricUnits then p.kph else p.kph * MILES_PER_KM)
    cad := maxRat 0 p.cad
    alt := maxRat 0 (if useMetricUnits then p.alt else p.alt * FEET_PER_M)
    dist := maxRat 0 (if useMetricUnits then p.km else p.km * MILES_PER_KM)
    inter := p.interval }

/-- The loading `while (i.hasNext())` loop of `AllPlot::setData`, one array
slot appended per point. -/
def setDataLoop (useMetricUnits : Bool) : List RideFilePoint → List ConvPoint
  | [] => []
  | p :: ps => convertPoint useMetricUnits p :: setDataLoop useMetricUnits ps

/-- The array state of an `AllPlot` after a successful load: the presence
flags together with the per-index converted values.  The individual
`QwtArray` members of the C++ class are recovered by the projections
below (`wattsArray` is resized to `npoints` when watts are present and to
`0` otherwise, and similarly for the other channels; `timeArray`,
`interArray` and `distanceArray` always have `npoints` entries). -/
structure PlotData where
  pres : RideFileDataPresent
  samples : List ConvPoint
deriving Repr, DecidableEq

def PlotData.wattsArray (d : PlotData) : List ℚ :=
  if d.pres.watts then d.samples.map ConvPoint.watts else []

def PlotData.hrArray (d : PlotData) : List ℚ :=
  if d.pres.hr then d.samples.map ConvPoint.hr else []

def PlotData.speedArray (d : PlotData) : List ℚ :=
  if d.pres.kph then d.samples.map ConvPoint.speed else []

def PlotData.cadArray (d : PlotData) : List ℚ :=
  if d.pres.cad then d.samples.map ConvPoint.cad else []

def PlotData.altArray (d : PlotData) : List ℚ :=
  if d.pres.alt then d.samples.map ConvPoint.alt else []

def PlotData.timeArray (d : PlotData) : List ℚ :=
  d.samples.map ConvPoint.time

def PlotData.distanceArray (d : PlotData) : List ℚ :=
  d.samples.map ConvPoint.dist

def PlotData.interArray (d : PlotData) : List ℤ :=
  d.samples.map ConvPoint.inter

/-- Result of `AllPlot::setData`: the plot title, which of the five curves
are attached, and the freshly loaded arrays.  When the ride item has no
ride (`ride == NULL`), the C++ leaves the old arrays in place apart from
clearing `wattsArray`; we record that branch with `data = none` since no
claim reads the stale arrays. -/
structure SetDataResult where
  title : String
  wattsAttached : Bool
  hrAttached : Bool
  speedAttached : Bool
  cadAttached : Bool
  altAttached : Bool
  data : Option PlotData
deriving Repr, DecidableEq

/-- `AllPlot::setData`: sets the title, resizes and fills the arrays, and
attaches exactly the curves whose array is non-empty; with no ride it sets
the title to "no data" and detaches all five curves. -/
def setData (useMetricUnits : Bool) (ride : Option RideFile) : SetDataResult :=
  match ride with
  | none =>
      { title := "no data"
        wattsAttached := false
        hrAttached := false
        speedAttached := false
        cadAttached := false
        altAttached := false
        data := none }
  | some r =>
      let d : PlotData := { pres := r.dataPresent
                            samples := setDataLoop useMetricUnits r.points }
      { title := r.startTimeString
        wattsAttached := !d.wattsArray.isEmpty
        hrAttached := !d.hrArray.isEmpty
        speedAttached := !d.speedArray.isEmpty
        cadAttached := !d.cadArray.isEmpty
        altAttached := !d.altArray.isEmpty
        data := some d }

/-- `struct DataPoint` from `AllPlot.cpp`. -/
structure DataPoint where
  time : ℚ
  hr : ℚ
  watts : ℚ
  speed : ℚ
  cad : ℚ
  alt : ℚ
  inter : ℤ
deriving Repr, DecidableEq

/-- The `DataPoint dp(...)` built by the consuming loop of `recalc` for one
sample: an absent channel contributes `0`. -/
def mkDataPoint (d : PlotData) (s : ConvPoint) : DataPoint :=
  { time := s.time
    hr := if !d.hrArray.isEmpty then s.hr else 0
    watts := if !d.wattsArray.isEmpty then s.watts else 0
    speed := if !d.speedArray.isEmpty then s.speed else 0
    cad := if !d.cadArray.isEmpty then s.cad else 0
    alt := if !d.altArray.isEmpty then s.alt else 0
    inter := s.inter }

/-- The running totals of `recalc`. -/
structure RecalcTotals where
  totalWatts : ℚ
  totalHr : ℚ
  totalSpeed : ℚ
  totalCad : ℚ
  totalDist : ℚ
  totalAlt : ℚ
deriving Repr, DecidableEq

/-- `QMap<double,int>::operator[]` assignment: replace the value at an
existing key, append a new key.  Since `recalc` inserts with nondecreasing
keys, insertion order coincides with the ascending key order in which
`QMap::keys()` is later iterated. -/
def mapInsert (k : ℚ) (v : ℤ) : List (ℚ × ℤ) → List (ℚ × ℤ)
  | [] => [(k, v)]
  | (k', v') :: rest =>
      if k = k' then (k, v) :: rest else (k', v') :: mapInsert k v rest

/-- The loop state of `recalc`: the sliding window `list`, the totals, the
interval bookkeeping, and the per-second output vectors built so far
(`smoothWatts` etc. are written at indices `0, 1, 2, ...` in order, so the
written part of each `QVector` is a list).  `altOk` records that every
`smoothAltitude[secs - 1]` fallback read so far was in bounds. -/
structure LoopState where
  window : List DataPoint
  tot : RecalcTotals
  lastInterval : ℤ
  interList : List (ℚ × ℤ)
  outWatts : List ℚ
  outHr : List ℚ
  outSpeed : List ℚ
  outCad : List ℚ
  outTime : List ℚ
  outDist : List ℚ
  outAlt : List ℚ
  altOk : Bool
deriving Repr, DecidableEq

/-- Body of the consuming `while` of `recalc` for one sample `s` at bin
`secs`: build the `DataPoint`, add the present channels to the totals,
record the distance, append to the window, and record an interval
transition under the key `secs/60.0`. -/
def consumeOne (d : PlotData) (secs : ℤ) (s : ConvPoint) (st : LoopState) :
    LoopState :=
  let dp := mkDataPoint d s
  let tot₁ := { st.tot with
    totalWatts := if !d.wattsArray.isEmpty then st.tot.totalWatts + s.watts
      else st.tot.totalWatts
    totalHr := if !d.hrArray.isEmpty then st.tot.totalHr + s.hr
      else st.tot.totalHr
    totalSpeed := if !d.speedArray.isEmpty then st.tot.totalSpeed + s.speed
      else st.tot.totalSpeed
    totalCad := if !d.cadArray.isEmpty then st.tot.totalCad + s.cad
      else st.tot.totalCad
    totalAlt := if !d.altArray.isEmpty then st.tot.totalAlt + s.alt
      else st.tot.totalAlt
    totalDist := s.dist }
  if st.lastInterval ≠ s.inter then
    { st with
      window := st.window ++ [dp]
      tot := tot₁
      lastInterval := s.inter
      interList := mapInsert ((secs : ℚ) / 60) s.inter st.interList }
  else
    { st with
      window := st.window ++ [dp]
      tot := tot₁ }

/-- The consuming `while ((i < arrayLength) && (timeArray[i] <= secs))` loop
of `recalc`; returns the unconsumed suffix and the updated state. -/
def consumeLoop (d : PlotData) (secs : ℤ) :
    List ConvPoint → LoopState → List ConvPoint × LoopState
  | [], st => ([], st)
  | s :: rest, st =>
      if s.time ≤ (secs : ℚ) then consumeLoop d secs rest (consumeOne d secs s st)
      else (s :: rest, st)

/-- The evicting `while (!list.empty() && (list.front().time < secs - smooth))`
loop of `recalc`: drop from the front of the window, subtracting the
channel totals (the distance total is not touched). -/
def evictLoop (smooth secs : ℤ) :
    List DataPoint → RecalcTotals → List DataPoint × RecalcTotals
  | [], tot => ([], tot)
  | dp :: rest, tot =>
      if dp.time < ((secs - smooth : ℤ) : ℚ) then
        evictLoop smooth secs rest
          { tot with
            totalWatts := tot.totalWatts - dp.watts
            totalHr := tot.totalHr - dp.hr
            totalSpeed := tot.totalSpeed - dp.speed
            totalCad := tot.totalCad - dp.cad
            totalAlt := tot.totalAlt - dp.alt }
      else (dp :: rest, tot)

/-- Read of a zero-based vector at a (possibly negative) C++ `int` index:
`none` models an out-of-bounds access. -/
def listGetI (l : List ℚ) (i : ℤ) : Option ℚ :=
  if h : 0 ≤ i ∧ i.toNat < l.length then some (l.get ⟨i.toNat, h.2⟩) else none

/-- One iteration of the main `for (int secs = smooth; secs <= rideTimeSecs;
++secs)` loop of `recalc`: consume, evict, then write the per-second bin
values (zero channels and the carried-forward `smoothAltitude[secs - 1]`
when the window is empty, the running mean otherwise), and always the
distance and `secs/60.0`. -/
def binStep (d : PlotData) (smooth secs : ℤ) (rest : List ConvPoint)
    (st : LoopState) : List ConvPoint × LoopState :=
  let c := consumeLoop d secs rest st
  let e := evictLoop smooth secs c.2.window c.2.tot
  let st' := { c.2 with window := e.1, tot := e.2 }
  if st'.window.isEmpty then
    let prevAlt := listGetI st'.outAlt (secs - 1)
    (c.1,
     { st' with
       outWatts := st'.outWatts ++ [0]
       outHr := st'.outHr ++ [0]
       outSpeed := st'.outSpeed ++ [0]
       outCad := st'.outCad ++ [0]
       outAlt := st'.outAlt ++ [prevAlt.getD 0]
       altOk := st'.altOk && prevAlt.isSome
       outDist := st'.outDist ++ [st'.tot.totalDist]
       outTime := st'.outTime ++ [(secs : ℚ) / 60] })
  else
    let n : ℚ := (st'.window.length : ℚ)
    (c.1,
     { st' with
       outWatts := st'.outWatts ++ [st'.tot.totalWatts / n]
       outHr := st'.outHr ++ [st'.tot.totalHr / n]
       outSpeed := st'.outSpeed ++ [st'.tot.totalSpeed / n]
       outCad := st'.outCad ++ [st'.tot.totalCad / n]
       outAlt := st'.outAlt ++ [st'.tot.totalAlt / n]
       outDist := st'.outDist ++ [st'.tot.totalDist]
       outTime := st'.outTime ++ [(secs : ℚ) / 60] })

/-- The main loop of `recalc`, running `fuel` bins starting at `secs`. -/
def mainLoop (d : PlotData) (smooth : ℤ) :
    Nat → ℤ → List ConvPoint → LoopState → LoopState
  | 0, _, _, st => st
  | Nat.succ k, secs, rest, st =>
      let b := binStep d smooth secs rest st
      mainLoop d smooth k (secs + 1) b.1 b.2

/-- The state after the zero-filling `for (int secs = 0; secs < smooth &&
secs < rideTimeSecs; ++secs)` loop: `pk` entries written, all zero except
`smoothTime[secs] = secs / 60.0`. -/
def initState (pk : Nat) : LoopState :=
  { window := []
    tot := ⟨0, 0, 0, 0, 0, 0⟩
    lastInterval := 0
    interList := []
    outWatts := List.replicate pk 0
    outHr := List.replicate pk 0
    outSpeed := List.replicate pk 0
    outCad := List.replicate pk 0
    outTime := (List.range pk).map (fun s : ℕ => (s : ℚ) / 60)
    outDist := List.replicate pk 0
    outAlt := List.replicate pk 0
    altOk := true }

/-- The written part of a `QVector<double>(n)` extended to the vector's full
length: unwritten slots hold the default `0.0`. -/
def padTo (n : Nat) (l : List ℚ) : List ℚ :=
  l.take n ++ List.replicate (n - l.length) 0

/-- One interval marker: the `QMap` key it came from (`secs/60.0`), the
interval number it is labelled with, and the x position passed to
`setValue`. -/
structure Marker where
  key : ℚ
  label : ℤ
  x : ℚ
deriving Repr, DecidableEq

/-- The observable effects of one `AllPlot::recalc` call.  `none` in a
curve/axis/marker field means the corresponding widget state was left
untouched by this call. -/
structure RecalcResult where
  ran : Bool
  earlyReturn : Bool
  wattsCurveData : Option (List (ℚ × ℚ))
  hrCurveData : Option (List (ℚ × ℚ))
  speedCurveData : Option (List (ℚ × ℚ))
  cadCurveData : Option (List (ℚ × ℚ))
  altCurveData : Option (List (ℚ × ℚ))
  xAxisScale : Option (ℚ × ℚ)
  yMaxCalled : Bool
  zoneLabelsRefreshed : Bool
  markers : Option (List Marker)
  smoothWatts : List ℚ
  smoothHr : List ℚ
  smoothSpeed : List ℚ
  smoothCad : List ℚ
  smoothAltitude : List ℚ
  smoothDistance : List ℚ
  smoothTime : List ℚ
  interList : List (ℚ × ℤ)
  altOk : Bool
deriving Repr, DecidableEq

/-- `int rideTimeSecs = (int) ceil(timeArray[arrayLength - 1])`. -/
def rideTimeSecsOf (d : PlotData) : ℤ := ⌈(d.timeArray.getLast?).getD 0⌉

/-- The tail of `AllPlot::recalc` after the main loop: pad the written
vectors to the full `QVector` length, set the curves, the x axis, call
`setYMax`, refresh the zone labels and rebuild the interval markers. -/
def recalcTail (d : PlotData) (bydist : Bool) (rideTimeSecs : ℤ)
    (st : LoopState) : RecalcResult :=
  let n := (rideTimeSecs + 1).toNat
  let smoothWatts := padTo n st.outWatts
  let smoothHr := padTo n st.outHr
  let smoothSpeed := padTo n st.outSpeed
  let smoothCad := padTo n st.outCad
  let smoothAltitude := padTo n st.outAlt
  let smoothDistance := padTo n st.outDist
  let smoothTime := padTo n st.outTime
  let xaxis := if bydist then smoothDistance else smoothTime
  { ran := true, earlyReturn := false
    wattsCurveData := if !d.wattsArray.isEmpty then
      some (xaxis.zip smoothWatts) else none
    hrCurveData := if !d.hrArray.isEmpty then
      some (xaxis.zip smoothHr) else none
    speedCurveData := if !d.speedArray.isEmpty then
      some (xaxis.zip smoothSpeed) else none
    cadCurveData := if !d.cadArray.isEmpty then
      some (xaxis.zip smoothCad) else none
    altCurveData := if !d.altArray.isEmpty then
      some (xaxis.zip smoothAltitude) else none
    xAxisScale := some (0, if bydist then st.tot.totalDist
      else (listGetI smoothTime rideTimeSecs).getD 0)
    yMaxCalled := true, zoneLabelsRefreshed := true
    markers := some (st.interList.map (fun kv =>
      { key := kv.1, label := kv.2
        x := if !bydist then kv.1
          else (listGetI smoothDistance ⌈(60 : ℚ) * kv.1⌉).getD 0 }))
    smoothWatts := smoothWatts, smoothHr := smoothHr
    smoothSpeed := smoothSpeed, smoothCad := smoothCad
    smoothAltitude := smoothAltitude, smoothDistance := smoothDistance
    smoothTime := smoothTime
    interList := st.interList, altOk := st.altOk }

/-- `AllPlot::recalc`. -/
def recalc (d : PlotData) (smooth : ℤ) (bydist : Bool) : RecalcResult :=
  if d.timeArray.isEmpty then
    { ran := false, earlyReturn := false
      wattsCurveData := none, hrCurveData := none, speedCurveData := none
      cadCurveData := none, altCurveData := none
      xAxisScale := none, yMaxCalled := false, zoneLabelsRefreshed := false
      markers := none
      smoothWatts := [], smoothHr := [], smoothSpeed := [], smoothCad := []
      smoothAltitude := [], smoothDistance := [], smoothTime := []
      interList := [], altOk := true }
  else
    let rideTimeSecs : ℤ := rideTimeSecsOf d
    if rideTimeSecs > 7*24*60*60 then
      { ran := true, earlyReturn := true
        wattsCurveData := if !d.wattsArray.isEmpty then some [] else none
        hrCurveData := if !d.hrArray.isEmpty then some [] else none
        speedCurveData := if !d.speedArray.isEmpty then some [] else none
        cadCurveData := if !d.cadArray.isEmpty then some [] else none
        altCurveData := if !d.altArray.isEmpty then some [] else none
        xAxisScale := none, yMaxCalled := false, zoneLabelsRefreshed := false
        markers := none
        smoothWatts := [], smoothHr := [], smoothSpeed := [], smoothCad := []
        smoothAltitude := [], smoothDistance := [], smoothTime := []
        interList := [], altOk := true }
    else
      let pk := (min smooth rideTimeSecs).toNat
      let fuel := (rideTimeSecs + 1 - smooth).toNat
      recalcTail d bydist rideTimeSecs
        (mainLoop d smooth fuel smooth d.samples (initState pk))

/-- Sample times are nondecreasing. -/
def TimeSorted (l : List ConvPoint) : Prop :=
  l.Pairwise (fun a b => a.time ≤ b.time)

/-- Boolean form of the consuming test `timeArray[i] <= secs`. -/
def tle (c : ℤ) (s : ConvPoint) : Bool := decide (s.time ≤ (c : ℚ))

/-- The samples consumed once the main loop has finished bin `c` (sorted
input): those with `t ≤ c`. -/
def upTo (d : PlotData) (c : ℤ) : List ConvPoint := d.samples.filter (tle c)

/-- The samples not yet consumed after bin `c` (sorted input). -/
def restSpec (d : PlotData) (c : ℤ) : List ConvPoint :=
  d.samples.filter (fun s => !tle c s)

/-- The samples consumed during bin `c` when `c` is not the first bin:
those with `c - 1 < t ≤ c`. -/
def chunkPred (c : ℤ) (s : ConvPoint) : Bool := !tle (c-1) s && tle c s

/-- Window membership at the end of bin `c`: `¬(t < c - smooth) ∧ t ≤ c`. -/
def winPred (smooth c : ℤ) (s : ConvPoint) : Bool :=
  !decide (s.time < ((c - smooth : ℤ) : ℚ)) && tle c s

/-- The sliding-window contents at the end of bin `c` (sorted input). -/
def windowSpec (d : PlotData) (smooth c : ℤ) : List DataPoint :=
  (d.samples.filter (winPred smooth c)).map (mkDataPoint d)

/-- Sum of one channel over a window. -/
def sumBy (l : List DataPoint) (f : DataPoint → ℚ) : ℚ := (l.map f).sum

/-- The distance value at bin `c`: the distance of the last consumed sample,
`0` before any sample is consumed. -/
def binValD (d : PlotData) (c : ℤ) : ℚ :=
  (((upTo d c).getLast?).map ConvPoint.dist).getD 0

/-- The running totals at the end of bin `c` (sorted input). -/
def totalsSpec (d : PlotData) (smooth c : ℤ) : RecalcTotals :=
  { totalWatts := sumBy (windowSpec d smooth c) DataPoint.watts
    totalHr := sumBy (windowSpec d smooth c) DataPoint.hr
    totalSpeed := sumBy (windowSpec d smooth c) DataPoint.speed
    totalCad := sumBy (windowSpec d smooth c) DataPoint.cad
    totalDist := binValD d c
    totalAlt := sumBy (windowSpec d smooth c) DataPoint.alt }

/-- One step of the interval bookkeeping: a transition of the interval
number is recorded under the key `b/60` where `b = max smooth ⌈t⌉` is the
bin in which the sample is consumed (sorted input, `smooth ≤ b ≤
rideTimeSecs`). -/
def interStep (smooth : ℤ) (acc : ℤ × List (ℚ × ℤ)) (s : ConvPoint) :
    ℤ × List (ℚ × ℤ) :=
  if acc.1 ≠ s.inter then
    (s.inter, mapInsert (((max smooth ⌈s.time⌉ : ℤ) : ℚ) / 60) s.inter acc.2)
  else acc

/-- The interval bookkeeping state after bin `c` (sorted input). -/
def interSpec (d : PlotData) (smooth c : ℤ) : ℤ × List (ℚ × ℤ) :=
  (upTo d c).foldl (interStep smooth) (0, [])

/-- The in-loop form of one interval-bookkeeping step during bin `secs`. -/
def interStepAt (secs : ℤ) (acc : ℤ × List (ℚ × ℤ)) (s : ConvPoint) :
    ℤ × List (ℚ × ℤ) :=
  if acc.1 ≠ s.inter then
    (s.inter, mapInsert ((secs : ℚ) / 60) s.inter acc.2)
  else acc

/-- Boolean form of the eviction test `list.front().time < secs - smooth`. -/
def evictPred (smooth secs : ℤ) (dp : DataPoint) : Bool :=
  decide (dp.time < ((secs - smooth : ℤ) : ℚ))

/-- Subtraction of the evicted points from the running totals. -/
def evictTotSub (tot : RecalcTotals) (l : List DataPoint) : RecalcTotals :=
  { tot with
    totalWatts := tot.totalWatts - sumBy l DataPoint.watts
    totalHr := tot.totalHr - sumBy l DataPoint.hr
    totalSpeed := tot.totalSpeed - sumBy l DataPoint.speed
    totalCad := tot.totalCad - sumBy l DataPoint.cad
    totalAlt := tot.totalAlt - sumBy l DataPoint.alt }

/-- The smoothed value of channel `f` at bin `c`: the window mean, or `0`
for an empty window. -/
def binValBy (d : PlotData) (smooth c : ℤ) (f : DataPoint → ℚ) : ℚ :=
  if (windowSpec d smooth c).isEmpty then 0
  else sumBy (windowSpec d smooth c) f / ((windowSpec d smooth c).length : ℚ)

/-- The smoothed altitude at the `k`-th main bin (`c = smooth + k`): the
window mean when the window is nonempty, otherwise the previous bin's value
(`0` before the first main bin, from the zero prefix). -/
def binValA (d : PlotData) (smooth : ℤ) : Nat → ℚ
  | 0 =>
      if (windowSpec d smooth smooth).isEmpty then 0
      else sumBy (windowSpec d smooth smooth) DataPoint.alt /
        ((windowSpec d smooth smooth).length : ℚ)
  | Nat.succ k =>
      if (windowSpec d smooth (smooth + (k + 1 : ℕ))).isEmpty then
        binValA d smooth k
      else sumBy (windowSpec d smooth (smooth + (k + 1 : ℕ))) DataPoint.alt /
        ((windowSpec d smooth (smooth + (k + 1 : ℕ))).length : ℚ)

/-- The spec-level loop state after the main loop has processed the bins
`smooth, ..., smooth + n - 1` (for `n ≥ 1`), with `pk` prefix slots. -/
def stateSpec (d : PlotData) (smooth : ℤ) (pk : Nat) (n : Nat) : LoopState :=
  { window := windowSpec d smooth (smooth + n - 1)
    tot := totalsSpec d smooth (smooth + n - 1)
    lastInterval := (interSpec d smooth (smooth + n - 1)).1
    interList := (interSpec d smooth (smooth + n - 1)).2
    outWatts := List.replicate pk 0 ++
      (List.range n).map (fun i : ℕ => binValBy d smooth (smooth + i) DataPoint.watts)
    outHr := List.replicate pk 0 ++
      (List.range n).map (fun i : ℕ => binValBy d smooth (smooth + i) DataPoint.hr)
    outSpeed := List.replicate pk 0 ++
      (List.range n).map (fun i : ℕ => binValBy d smooth (smooth + i) DataPoint.speed)
    outCad := List.replicate pk 0 ++
      (List.range n).map (fun i : ℕ => binValBy d smooth (smooth + i) DataPoint.cad)
    outTime := (List.range pk).map (fun s : ℕ => (s : ℚ) / 60) ++
      (List.range n).map (fun i : ℕ => ((smooth + i : ℤ) : ℚ) / 60)
    outDist := List.replicate pk 0 ++
      (List.range n).map (fun i : ℕ => binValD d (smooth + i))
    outAlt := List.replicate pk 0 ++ (List.range n).map (binValA d smooth)
    altOk := true }

/-- What `AllPlot::setYMax` reads from one `QwtPlotCurve`: its visibility and
its maximal y value. -/
structure CurveView where
  visible : Bool
  maxY : ℚ
deriving Repr, DecidableEq

/-- The outputs of `AllPlot::setYMax`: the left axis scale and title, and
whether the right (speed) axis is enabled together with its title. -/
structure YMaxResult where
  yLeftScale : ℚ × ℚ
  yLeftTitle : String
  yRightEnabled : Bool
  yRightTitle : String
deriving Repr, DecidableEq

/-- `AllPlot::setYMax`: folds `ymax = max(ymax, curve->maxYValue())` and
appends the unit name over the visible curves among watts, heart rate,
cadence and altitude (in that order), then sets the left axis to
`[0, ymax * 1.1]`, and enables the right axis iff the speed curve is
visible, titling it KPH or MPH. -/
def setYMax (useMetricUnits : Bool)
    (wattsCurve hrCurve cadCurve altCurve speedCurve : CurveView) : YMaxResult :=
  let ymax0 : ℚ := 0
  let ylabel0 : String := ""
  let ymax1 := if wattsCurve.visible then maxRat ymax0 wattsCurve.maxY else ymax0
  let ylabel1 := if wattsCurve.visible then
      ylabel0 ++ (if ylabel0 = "" then "" else " / ") ++ "Watts" else ylabel0
  let ymax2 := if hrCurve.visible then maxRat ymax1 hrCurve.maxY else ymax1
  let ylabel2 := if hrCurve.visible then
      ylabel1 ++ (if ylabel1 = "" then "" else " / ") ++ "BPM" else ylabel1
  let ymax3 := if cadCurve.visible then maxRat ymax2 cadCurve.maxY else ymax2
  let ylabel3 := if cadCurve.visible then
      ylabel2 ++ (if ylabel2 = "" then "" else " / ") ++ "RPM" else ylabel2
  let ymax4 := if altCurve.visible then maxRat ymax3 altCurve.maxY else ymax3
  let ylabel4 := if altCurve.visible then
      ylabel3 ++ (if ylabel3 = "" then "" else " / ") ++
        (if useMetricUnits then "Meters" else "Ft") else ylabel3
  { yLeftScale := (0, ymax4 * 1.1)
    yLeftTitle := ylabel4
    yRightEnabled := speedCurve.visible
    yRightTitle := if useMetricUnits then "KPH" else "MPH" }

/-- `AllPlot::setXTitle`: "Distance (km)" / "Distance (miles)" when plotting
by distance, "Time (minutes)" when plotting by time. -/
def setXTitle (bydist : Bool) (useMetricUnits : Bool) : String :=
  if bydist then "Distance " ++ (if useMetricUnits then "(km)" else "(miles)")
  else "Time (minutes)"

/-- Spec-side: the maximal y values of the visible curves among power, heart
rate, cadence and altitude. -/
def visibleLeftMaxima (wattsCurve hrCurve cadCurve altCurve : CurveView) : List ℚ :=
  (([wattsCurve, hrCurve, cadCurve, altCurve]).filter (fun c => c.visible)).map
    (fun c => c.maxY)

/-- Spec-side: the maximum over the visible left-axis curves of each curve's
maximal y value, `0` when none is visible. -/
def specLeftMax (wattsCurve hrCurve cadCurve altCurve : CurveView) : ℚ :=
  match visibleLeftMaxima wattsCurve hrCurve cadCurve altCurve with
  | [] => 0
  | x :: xs => xs.foldl max x

/-- Spec-side: the unit names of the visible left-axis curves, in curve
order. -/
def leftUnitNames (useMetricUnits : Bool)
    (wattsCurve hrCurve cadCurve altCurve : CurveView) : List String :=
  (if wattsCurve.visible then ["Watts"] else []) ++
  (if hrCurve.visible then ["BPM"] else []) ++
  (if cadCurve.visible then ["RPM"] else []) ++
  (if altCurve.visible then [if useMetricUnits then "Meters" else "Ft"] else [])

/-- The window described by claim C1: all samples with
`secs - smooth ≤ t ≤ secs`. -/
def claimWindow (d : PlotData) (smooth secs : ℤ) : List ConvPoint :=
  d.samples.filter (fun s =>
    decide (((secs - smooth : ℤ) : ℚ) ≤ s.time) && decide (s.time ≤ (secs : ℚ)))

/-- The number of interval transitions in a sample stream (the interval
before the first sample taken to be `0`, as in `recalc`). -/
def transitionCount (l : List ConvPoint) : ℕ :=
  (l.foldl (fun (acc : ℤ × ℕ) s =>
    if acc.1 ≠ s.inter then (s.inter, acc.2 + 1) else acc) (0, 0)).2

/-- A concrete two-sample ride (times 1 and 2). -/
def exPlot : PlotData :=
  { pres := ⟨true, true, true, true, true⟩
    samples := [⟨1, 100, 60, 10, 80, 5, 1, 0⟩, ⟨2, 200, 70, 12, 82, 6, 2, 0⟩] }

/-- A concrete ride with two interval transitions inside one per-second
bin. -/
def exInter : PlotData :=
  { pres := ⟨true, true, true, true, true⟩
    samples := [⟨1/5, 100, 60, 10, 80, 5, 1, 1⟩, ⟨1/2, 200, 70, 12, 82, 6, 2, 2⟩] }

/-- A concrete example ride, with some negative raw channel values. -/
def exRide : RideFile :=
  { startTimeString := "ride"
    dataPresent := ⟨true, true, true, true, true⟩
    points := [⟨0, -5, 100, 30, -2, 12, 1, 0⟩, ⟨3, 250, 150, 35, 90, 15, 2, 1⟩] }

/-- A concrete ride longer than seven days. -/
def exLong : PlotData :=
  { pres := ⟨true, true, true, true, true⟩
    samples := [⟨604801, 100, 60, 10, 80, 5, 1, 0⟩] }

/-- A concrete one-sample ride whose first timestamp is positive. -/
def exOne : PlotData :=
  { pres := ⟨true, true, true, true, true⟩
    samples := [⟨1, 100, 60, 10, 80, 5, 1, 0⟩] }

/-- The interface of `Zones` used by `AllPlot.cpp`. -/
structure Zones where
  getZoneLows : ℤ → List ℤ
  getZoneNames : ℤ → List String
  numZones : ℤ → ℤ

/-- The part of `RideItem` read by the zone-shading code: the (double)
zones pointer and the zone range.  `zones = none` models a null `Zones **`,
`some none` a non-null pointer to a null `Zones *`. -/
structure RideItemModel where
  zones : Option (Option Zones)
  zoneRange : ℤ

/-- `AllPlot::shadeZones()`:
`return (shade_zones && !wattsArray.empty());` -/
def shadeZonesFn (shade_zones : Bool) (d : PlotData) : Bool :=
  shade_zones && !d.wattsArray.isEmpty

/-- The visibility/shading flags set by `AllPlot::showPower`. -/
structure ShowPowerResult where
  wattsVisible : Bool
  shade_zones : Bool
deriving Repr, DecidableEq

/-- `AllPlot::showPower`: `wattsCurve->setVisible(id < 2);
shade_zones = (id == 0);` -/
def showPower (id : ℤ) : ShowPowerResult :=
  { wattsVisible := decide (id < 2)
    shade_zones := decide (id = 0) }

/-- A paint rectangle; only the vertical extent matters to the shading. -/
structure QRect where
  top : ℤ
  bottom : ℤ
deriving Repr, DecidableEq

/-- The `for (int z = 0; z < num_zones; z++)` loop of
`AllPlotBackground::draw`: for each zone, `r.setBottom(yMap.transform
(zone_lows[z]))`, `r.setTop(yMap.transform(zone_lows[z+1]))` when a next
zone exists (otherwise the top stays the top of the paint rect), and the
rect is filled only if `r.top() <= r.bottom()`. -/
def zoneBands (yMap : ℤ → ℤ) (rect : QRect) : List ℤ → List QRect
  | [] => []
  | [l] =>
      if rect.top ≤ yMap l then [{ top := rect.top, bottom := yMap l }] else []
  | l :: l' :: rest =>
      (if yMap l' ≤ yMap l then [{ top := yMap l', bottom := yMap l }] else [])
        ++ zoneBands yMap rect (l' :: rest)

/-- `AllPlotBackground::draw`: nothing is painted without a ride item; with
one, the zone bands are painted iff `shadeZones() && zones && *zones &&
zone_range >= 0`. -/
def backgroundDraw (shade_zones : Bool) (d : PlotData)
    (rideItem : Option RideItemModel) (yMap : ℤ → ℤ) (rect : QRect) :
    List QRect :=
  match rideItem with
  | none => []
  | some ri =>
      match ri.zones with
      | some (some z) =>
          if shadeZonesFn shade_zones d && decide (ri.zoneRange ≥ 0) then
            zoneBands yMap rect (z.getZoneLows ri.zoneRange)
          else []
      | _ => []

/-- Spec-side (claim C6): one band per zone, spanning from the zone's low
value up to the next zone's low value, the topmost band extending to the
top of the plot (in transformed coordinates). -/
def specBands (yMap : ℤ → ℤ) (rect : QRect) : List ℤ → List QRect
  | [] => []
  | [l] => [{ top := rect.top, bottom := yMap l }]
  | l :: l' :: rest =>
      { top := yMap l', bottom := yMap l } :: specBands yMap rect (l' :: rest)

/-- A concrete zone set for the C6 witness. -/
def exZones : Zones :=
  { getZoneLows := fun _ => [100, 200, 300]
    getZoneNames := fun _ => ["Z1", "Z2", "Z3"]
    numZones := fun _ => 3 }

/-- Spec-side: replace-or-append keyed by the integer bin number. -/
def binInsert (k : ℤ) (v : ℤ) : List (ℤ × ℤ) → List (ℤ × ℤ)
  | [] => [(k, v)]
  | (k', v') :: rest =>
      if k = k' then (k, v) :: rest else (k', v') :: binInsert k v rest

/-- Spec-side (amended claim C5): one step of collecting interval
transitions, keyed by the per-second bin `max smooth ⌈t⌉` in which the
sample is consumed, keeping the last transition of each bin. -/
def specStep (smooth : ℤ) (acc : ℤ × List (ℤ × ℤ)) (s : ConvPoint) :
    ℤ × List (ℤ × ℤ) :=
  if acc.1 ≠ s.inter then
    (s.inter, binInsert (max smooth ⌈s.time⌉) s.inter acc.2)
  else acc

/-- Spec-side (amended claim C5): the bins with at least one interval
transition among the consumed samples, each with the interval number of the
last transition consumed in that bin. -/
def specInterBins (d : PlotData) (smooth c : ℤ) : List (ℤ × ℤ) :=
  ((upTo d c).foldl (specStep smooth) (0, [])).2

theorem maxRat_eq_max (a b : ℚ) : maxRat a b = max a b := by
  unfold maxRat
  rcases le_or_lt a b with h | h
  · rw [if_neg (not_lt.mpr h), max_eq_right h]
  · rw [if_pos h, max_eq_left h.le]

theorem maxRat_nonneg (v : ℚ) : 0 ≤ maxRat 0 v := by
  unfold maxRat
  split
  · exact le_refl 0
  · linarith [not_lt.mp (by assumption : ¬ (0:ℚ) > v)]

theorem setDataLoop_eq_map (m : Bool) (ps : List RideFilePoint) :
    setDataLoop m ps = ps.map (convertPoint m) := by
  induction ps with
  | nil => rfl
  | cons p ps ih => simp [setDataLoop, ih]

/-- C3: the left y-axis range derived by `setYMax` is `[0, 1.1 * m]` where
`m` is the maximum over the visible curves among power, heart rate, cadence
and altitude of each curve's maximum y value (`0` when none is visible); the
left-axis title is the "/"-joined list of the unit names of exactly those
visible curves; speed is excluded from the maximum and the right axis is
enabled iff the speed curve is visible. -/
theorem C3_setYMax_axis_derivation (m : Bool)
    (w h c a s : CurveView)
    (hw : 0 ≤ w.maxY) (hh : 0 ≤ h.maxY) (hc : 0 ≤ c.maxY) (ha : 0 ≤ a.maxY) :
    (setYMax m w h c a s).yLeftScale = (0, 1.1 * specLeftMax w h c a) ∧
    (setYMax m w h c a s).yLeftTitle =
      String.intercalate " / " (leftUnitNames m w h c a) ∧
    (setYMax m w h c a s).yRightEnabled = s.visible := by
  obtain ⟨wv, wy⟩ := w
  obtain ⟨hv, hy⟩ := h
  obtain ⟨cv, cy⟩ := c
  obtain ⟨av, ay⟩ := a
  simp only [CurveView.maxY] at hw hh hc ha
  refine ⟨?_, ?_, rfl⟩
  · cases wv <;> cases hv <;> cases cv <;> cases av <;>
      simp [setYMax, specLeftMax, visibleLeftMaxima, List.filter, maxRat_eq_max,
        max_eq_right hw, max_eq_right hh, max_eq_right hc, max_eq_right ha,
        mul_comm]
  · cases wv <;> cases hv <;> cases cv <;> cases av <;> cases m <;>
      simp [setYMax, leftUnitNames, String.intercalate, List.filter] <;> decide

theorem maxRat_zero_of_nonneg {x : ℚ} (hx : 0 ≤ x) : maxRat 0 x = x := by
  unfold maxRat
  rw [if_neg (not_lt.mpr hx)]

theorem forall_mem_map_conv_nonneg (m : Bool) (ps : List RideFilePoint)
    (f : ConvPoint → ℚ) (hf : ∀ p, 0 ≤ f (convertPoint m p)) :
    ∀ x ∈ (setDataLoop m ps).map f, 0 ≤ x := by
  intro x hx
  rw [setDataLoop_eq_map, List.map_map] at hx
  obtain ⟨p, -, rfl⟩ := List.mem_map.mp hx
  exact hf p

theorem conv_watts_nonneg (m : Bool) (p : RideFilePoint) :
    0 ≤ (convertPoint m p).watts := maxRat_nonneg _

theorem conv_hr_nonneg (m : Bool) (p : RideFilePoint) :
    0 ≤ (convertPoint m p).hr := maxRat_nonneg _

theorem conv_speed_nonneg (m : Bool) (p : RideFilePoint) :
    0 ≤ (convertPoint m p).speed := maxRat_nonneg _

theorem conv_cad_nonneg (m : Bool) (p : RideFilePoint) :
    0 ≤ (convertPoint m p).cad := maxRat_nonneg _

theorem conv_alt_nonneg (m : Bool) (p : RideFilePoint) :
    0 ≤ (convertPoint m p).alt := maxRat_nonneg _

theorem conv_dist_nonneg (m : Bool) (p : RideFilePoint) :
    0 ≤ (convertPoint m p).dist := maxRat_nonneg _

/-- C9: after any `setData` on a ride, every value stored in the watts,
heart-rate, speed, cadence, altitude and distance arrays is nonnegative,
because each raw value is clamped with `max(0, value)` at load time. -/
theorem C9_setData_arrays_nonneg (m : Bool) (r : RideFile) (d : PlotData)
    (hd : (setData m (some r)).data = some d) :
    (∀ x ∈ d.wattsArray, 0 ≤ x) ∧ (∀ x ∈ d.hrArray, 0 ≤ x) ∧
    (∀ x ∈ d.speedArray, 0 ≤ x) ∧ (∀ x ∈ d.cadArray, 0 ≤ x) ∧
    (∀ x ∈ d.altArray, 0 ≤ x) ∧ (∀ x ∈ d.distanceArray, 0 ≤ x) := by
  have hd' : ({ pres := r.dataPresent,
                samples := setDataLoop m r.points } : PlotData) = d := by
    simpa [setData] using hd
  subst hd'
  refine ⟨?_, ?_, ?_, ?_, ?_, ?_⟩ <;>
    simp only [PlotData.wattsArray, PlotData.hrArray, PlotData.speedArray,
      PlotData.cadArray, PlotData.altArray, PlotData.distanceArray]
  · cases r.dataPresent.watts
    · simp
    · simpa using forall_mem_map_conv_nonneg m r.points ConvPoint.watts (fun p => conv_watts_nonneg m p)
  · cases r.dataPresent.hr
    · simp
    · simpa using forall_mem_map_conv_nonneg m r.points ConvPoint.hr (fun p => conv_hr_nonneg m p)
  · cases r.dataPresent.kph
    · simp
    · simpa using forall_mem_map_conv_nonneg m r.points ConvPoint.speed (fun p => conv_speed_nonneg m p)
  · cases r.dataPresent.cad
    · simp
    · simpa using forall_mem_map_conv_nonneg m r.points ConvPoint.cad (fun p => conv_cad_nonneg m p)
  · cases r.dataPresent.alt
    · simp
    · simpa using forall_mem_map_conv_nonneg m r.points ConvPoint.alt (fun p => conv_alt_nonneg m p)
  · exact forall_mem_map_conv_nonneg m r.points ConvPoint.dist
      (fun p => conv_dist_nonneg m p)

/-- Witness for C9: the stored heart-rate value 100 of `exRide` is
nonnegative. -/
theorem C9_setData_arrays_nonneg_witness :
    (100 : ℚ) ∈ (PlotData.hrArray
      ⟨exRide.dataPresent, setDataLoop true exRide.points⟩) ∧ (0 : ℚ) ≤ 100 :=
  ⟨by decide,
   (C9_setData_arrays_nonneg true exRide
     ⟨exRide.dataPresent, setDataLoop true exRide.points⟩ rfl).2.1 100 (by decide)⟩

/-- Witness for C3 at a concrete set of curves. -/
theorem C3_setYMax_axis_derivation_witness :
    (setYMax true ⟨true, 300⟩ ⟨true, 180⟩ ⟨false, 90⟩ ⟨true, 1000⟩
        ⟨true, 40⟩).yLeftScale =
      (0, 1.1 * specLeftMax ⟨true, 300⟩ ⟨true, 180⟩ ⟨false, 90⟩ ⟨true, 1000⟩) ∧
    (setYMax true ⟨true, 300⟩ ⟨true, 180⟩ ⟨false, 90⟩ ⟨true, 1000⟩
        ⟨true, 40⟩).yLeftTitle =
      String.intercalate " / "
        (leftUnitNames true ⟨true, 300⟩ ⟨true, 180⟩ ⟨false, 90⟩ ⟨true, 1000⟩) ∧
    (setYMax true ⟨true, 300⟩ ⟨true, 180⟩ ⟨false, 90⟩ ⟨true, 1000⟩
        ⟨true, 40⟩).yRightEnabled = true :=
  C3_setYMax_axis_derivation true ⟨true, 300⟩ ⟨true, 180⟩ ⟨false, 90⟩
    ⟨true, 1000⟩ ⟨true, 40⟩ (by norm_num) (by norm_num) (by norm_num) (by norm_num)

/-- C4: unit derivation.  With the "Metric" setting, `setData` stores speed,
altitude and distance unchanged and the labels are KPH, Meters and (km);
otherwise speed and distance are multiplied by `0.62137119` and altitude by
`3.2808399`, and the labels are MPH, Ft and (miles).  The conversion is
applied exactly once per sample, at load time (the arrays are pointwise maps
of the raw points). -/
theorem C4_unit_conversion (m : Bool) (r : RideFile) (d : PlotData)
    (hd : (setData m (some r)).data = some d)
    (hkph : ∀ p ∈ r.points, 0 ≤ p.kph)
    (halt : ∀ p ∈ r.points, 0 ≤ p.alt)
    (hkm : ∀ p ∈ r.points, 0 ≤ p.km)
    (w h c a s : CurveView) :
    d.speedArray = (if d.pres.kph then
      r.points.map (fun p => if m then p.kph else p.kph * MILES_PER_KM) else []) ∧
    d.altArray = (if d.pres.alt then
      r.points.map (fun p => if m then p.alt else p.alt * FEET_PER_M) else []) ∧
    d.distanceArray =
      r.points.map (fun p => if m then p.km else p.km * MILES_PER_KM) ∧
    (setYMax m w h c a s).yRightTitle = (if m then "KPH" else "MPH") ∧
    (setYMax m ⟨false, w.maxY⟩ ⟨false, h.maxY⟩ ⟨false, c.maxY⟩ ⟨true, a.maxY⟩
        s).yLeftTitle = (if m then "Meters" else "Ft") ∧
    setXTitle true m = "Distance " ++ (if m then "(km)" else "(miles)") := by
  have hd' : ({ pres := r.dataPresent,
                samples := setDataLoop m r.points } : PlotData) = d := by
    simpa [setData] using hd
  subst hd'
  have harr : ∀ (f : ConvPoint → ℚ) (g : RideFilePoint → ℚ),
      (∀ p ∈ r.points, f (convertPoint m p) = g p) →
      (setDataLoop m r.points).map f = r.points.map g := by
    intro f g hfg
    rw [setDataLoop_eq_map, List.map_map]
    exact List.map_congr_left (fun p hp => hfg p hp)
  refine ⟨?_, ?_, ?_, rfl, ?_, rfl⟩
  · show (if r.dataPresent.kph then _ else _) = _
    cases r.dataPresent.kph
    · simp [PlotData.speedArray]
    · simp only [PlotData.speedArray, if_true]
      refine harr _ _ (fun p hp => ?_)
      show maxRat 0 (if m then p.kph else p.kph * MILES_PER_KM) = _
      have : (0:ℚ) ≤ (if m then p.kph else p.kph * MILES_PER_KM) := by
        cases m
        · simpa using mul_nonneg (hkph p hp) (by norm_num [MILES_PER_KM])
        · simpa using hkph p hp
      exact maxRat_zero_of_nonneg this
  · show (if r.dataPresent.alt then _ else _) = _
    cases r.dataPresent.alt
    · simp [PlotData.altArray]
    · simp only [PlotData.altArray, if_true]
      refine harr _ _ (fun p hp => ?_)
      show maxRat 0 (if m then p.alt else p.alt * FEET_PER_M) = _
      have : (0:ℚ) ≤ (if m then p.alt else p.alt * FEET_PER_M) := by
        cases m
        · simpa using mul_nonneg (halt p hp) (by norm_num [FEET_PER_M])
        · simpa using halt p hp
      exact maxRat_zero_of_nonneg this
  · refine harr _ _ (fun p hp => ?_)
    show maxRat 0 (if m then p.km else p.km * MILES_PER_KM) = _
    have : (0:ℚ) ≤ (if m then p.km else p.km * MILES_PER_KM) := by
      cases m
      · simpa using mul_nonneg (hkm p hp) (by norm_num [MILES_PER_KM])
      · simpa using hkm p hp
    exact maxRat_zero_of_nonneg this
  · cases m <;> rfl

/-- Witness for C4 on the metric branch of `exRide`. -/
theorem C4_unit_conversion_witness :
    (PlotData.speedArray ⟨exRide.dataPresent, setDataLoop true exRide.points⟩) =
      (if (⟨exRide.dataPresent, setDataLoop true exRide.points⟩ :
            PlotData).pres.kph then
        exRide.points.map (fun p => if true = true then p.kph
          else p.kph * MILES_PER_KM) else []) ∧
    (PlotData.altArray ⟨exRide.dataPresent, setDataLoop true exRide.points⟩) =
      (if (⟨exRide.dataPresent, setDataLoop true exRide.points⟩ :
            PlotData).pres.alt then
        exRide.points.map (fun p => if true = true then p.alt
          else p.alt * FEET_PER_M) else []) ∧
    (PlotData.distanceArray
        ⟨exRide.dataPresent, setDataLoop true exRide.points⟩) =
      exRide.points.map (fun p => if true = true then p.km
        else p.km * MILES_PER_KM) ∧
    (setYMax true ⟨true, 300⟩ ⟨true, 180⟩ ⟨false, 90⟩ ⟨true, 1000⟩
        ⟨true, 40⟩).yRightTitle = (if true = true then "KPH" else "MPH") ∧
    (setYMax true ⟨false, 300⟩ ⟨false, 180⟩ ⟨false, 90⟩ ⟨true, 1000⟩
        ⟨true, 40⟩).yLeftTitle = (if true = true then "Meters" else "Ft") ∧
    setXTitle true true = "Distance " ++ (if true = true then "(km)" else "(miles)") :=
  C4_unit_conversion true exRide
    ⟨exRide.dataPresent, setDataLoop true exRide.points⟩ rfl
    (by decide) (by decide) (by decide)
    ⟨true, 300⟩ ⟨true, 180⟩ ⟨false, 90⟩ ⟨true, 1000⟩ ⟨true, 40⟩

/-- C7: the plot has exactly the five data series power, heart rate, speed,
cadence, altitude; after `setData` on a ride with data points, exactly the
curves whose channel is present are attached; with no ride data all five
curves are detached and the title becomes "no data". -/
theorem C7_setData_curve_attachment (m : Bool) (r : RideFile)
    (hr : r.points ≠ []) :
    ((setData m none).title = "no data" ∧
     (setData m none).wattsAttached = false ∧
     (setData m none).hrAttached = false ∧
     (setData m none).speedAttached = false ∧
     (setData m none).cadAttached = false ∧
     (setData m none).altAttached = false) ∧
    ((setData m (some r)).wattsAttached = r.dataPresent.watts ∧
     (setData m (some r)).hrAttached = r.dataPresent.hr ∧
     (setData m (some r)).speedAttached = r.dataPresent.kph ∧
     (setData m (some r)).cadAttached = r.dataPresent.cad ∧
     (setData m (some r)).altAttached = r.dataPresent.alt) := by
  obtain ⟨p, ps, hps⟩ : ∃ p ps, r.points = p :: ps := by
    cases h : r.points with
    | nil => exact absurd h hr
    | cons p ps => exact ⟨p, ps, rfl⟩
  refine ⟨⟨rfl, rfl, rfl, rfl, rfl, rfl⟩, ?_, ?_, ?_, ?_, ?_⟩
  · cases hw : r.dataPresent.watts <;>
      simp [setData, PlotData.wattsArray, hps, setDataLoop, hw]
  · cases hh : r.dataPresent.hr <;>
      simp [setData, PlotData.hrArray, hps, setDataLoop, hh]
  · cases hk : r.dataPresent.kph <;>
      simp [setData, PlotData.speedArray, hps, setDataLoop, hk]
  · cases hc : r.dataPresent.cad <;>
      simp [setData, PlotData.cadArray, hps, setDataLoop, hc]
  · cases ha : r.dataPresent.alt <;>
      simp [setData, PlotData.altArray, hps, setDataLoop, ha]

/-- Witness for C7 at `exRide`. -/
theorem C7_setData_curve_attachment_witness :
    ((setData true none).title = "no data" ∧
     (setData true none).wattsAttached = false ∧
     (setData true none).hrAttached = false ∧
     (setData true none).speedAttached = false ∧
     (setData true none).cadAttached = false ∧
     (setData true none).altAttached = false) ∧
    ((setData true (some exRide)).wattsAttached = exRide.dataPresent.watts ∧
     (setData true (some exRide)).hrAttached = exRide.dataPresent.hr ∧
     (setData true (some exRide)).speedAttached = exRide.dataPresent.kph ∧
     (setData true (some exRide)).cadAttached = exRide.dataPresent.cad ∧
     (setData true (some exRide)).altAttached = exRide.dataPresent.alt) :=
  C7_setData_curve_attachment true exRide (by decide)

theorem takeWhile_eq_filter_mono {α : Type} {r : α → α → Prop} (p : α → Bool)
    (hp : ∀ a b, r a b → p b = true → p a = true) :
    ∀ (l : List α), l.Pairwise r → l.takeWhile p = l.filter p := by
  intro l
  induction l with
  | nil => intro _; rfl
  | cons x xs ih =>
      intro hl
      rw [List.pairwise_cons] at hl
      cases hx : p x with
      | true =>
          rw [List.takeWhile_cons_of_pos hx, List.filter_cons_of_pos hx, ih hl.2]
      | false =>
          rw [List.takeWhile_cons_of_neg (by simp [hx]),
            List.filter_cons_of_neg (by simp [hx])]
          exact (List.filter_eq_nil_iff.mpr (fun a ha hpa => by
            have := hp x a (hl.1 a ha) hpa
            simp [hx] at this)).symm

theorem dropWhile_eq_filter_mono {α : Type} {r : α → α → Prop} (p : α → Bool)
    (hp : ∀ a b, r a b → p b = true → p a = true) :
    ∀ (l : List α), l.Pairwise r → l.dropWhile p = l.filter (fun a => !p a) := by
  intro l
  induction l with
  | nil => intro _; rfl
  | cons x xs ih =>
      intro hl
      rw [List.pairwise_cons] at hl
      cases hx : p x with
      | true =>
          rw [List.dropWhile_cons_of_pos hx,
            List.filter_cons_of_neg (by simp [hx]), ih hl.2]
      | false =>
          rw [List.dropWhile_cons_of_neg (by simp [hx]),
            List.filter_cons_of_pos (by simp [hx])]
          congr 1
          exact (List.filter_eq_self.mpr (fun a ha => by
            cases hpa : p a with
            | false => simp
            | true => exact absurd (hp x a (hl.1 a ha) hpa) (by simp [hx]))).symm

theorem filter_append_filter_sorted {α : Type} (f : α → ℚ) (p₁ p₂ : α → Bool)
    (θ : ℚ)
    (h₁ : ∀ a, p₁ a = true → f a ≤ θ) (h₂ : ∀ a, p₂ a = true → θ < f a) :
    ∀ (l : List α), l.Pairwise (fun a b => f a ≤ f b) →
      l.filter p₁ ++ l.filter p₂ = l.filter (fun a => p₁ a || p₂ a) := by
  intro l
  induction l with
  | nil => intro _; rfl
  | cons x xs ih =>
      intro hl
      rw [List.pairwise_cons] at hl
      cases hx1 : p₁ x with
      | true =>
          have hx2 : p₂ x = false := by
            cases hpx : p₂ x with
            | false => rfl
            | true => exact absurd (h₂ x hpx) (not_lt.mpr (h₁ x hx1))
          rw [List.filter_cons_of_pos hx1, List.filter_cons_of_neg (by simp [hx2]),
            List.filter_cons_of_pos (by simp [hx1]), List.cons_append, ih hl.2]
      | false =>
          cases hx2 : p₂ x with
          | false =>
              rw [List.filter_cons_of_neg (by simp [hx1]),
                List.filter_cons_of_neg (by simp [hx2]),
                List.filter_cons_of_neg (by simp [hx1, hx2]), ih hl.2]
          | true =>
              have hnil : xs.filter p₁ = [] :=
                List.filter_eq_nil_iff.mpr (fun a ha hpa =>
                  lt_irrefl θ (lt_of_lt_of_le (h₂ x hx2)
                    (le_trans (hl.1 a ha) (h₁ a hpa))))
              have hall : ∀ a ∈ xs, (p₁ a || p₂ a) = p₂ a := by
                intro a ha
                cases hpa : p₁ a with
                | false => simp
                | true =>
                    exact absurd (lt_of_lt_of_le (h₂ x hx2)
                      (le_trans (hl.1 a ha) (h₁ a hpa))) (lt_irrefl θ)
              rw [List.filter_cons_of_neg (by simp [hx1]),
                List.filter_cons_of_pos (by simp [hx2]),
                List.filter_cons_of_pos (by simp [hx2]), hnil,
                List.nil_append, List.filter_congr hall]

theorem foldl_congr_fun {α β : Type} {f g : β → α → β} :
    ∀ (l : List α), (∀ a ∈ l, ∀ b, f b a = g b a) →
      ∀ (b : β), l.foldl f b = l.foldl g b := by
  intro l
  induction l with
  | nil => intro _ b; rfl
  | cons x xs ih =>
      intro h b
      rw [List.foldl_cons, List.foldl_cons, h x (by simp) b]
      exact ih (fun a ha b' => h a (by simp [ha]) b') _

theorem consumeOne_eq (d : PlotData) (secs : ℤ) (s : ConvPoint) (st : LoopState) :
    consumeOne d secs s st =
      { st with
        window := st.window ++ [mkDataPoint d s]
        tot := { st.tot with
          totalWatts := st.tot.totalWatts + (mkDataPoint d s).watts
          totalHr := st.tot.totalHr + (mkDataPoint d s).hr
          totalSpeed := st.tot.totalSpeed + (mkDataPoint d s).speed
          totalCad := st.tot.totalCad + (mkDataPoint d s).cad
          totalAlt := st.tot.totalAlt + (mkDataPoint d s).alt
          totalDist := s.dist }
        lastInterval := (interStepAt secs (st.lastInterval, st.interList) s).1
        interList := (interStepAt secs (st.lastInterval, st.interList) s).2 } := by
  have key : ∀ (c : Bool) (a x : ℚ),
      (if c = true then a + x else a) = a + (if c = true then x else 0) := by
    intro c a x; cases c <;> simp
  unfold consumeOne mkDataPoint interStepAt
  by_cases hi : st.lastInterval ≠ s.inter <;> simp [hi, key] <;>
    refine ⟨?_, ?_, ?_, ?_, ?_⟩ <;> split <;> simp

theorem consumeLoop_eq (d : PlotData) (secs : ℤ) (rest : List ConvPoint) :
    ∀ (st : LoopState),
      consumeLoop d secs rest st =
        (rest.dropWhile (tle secs),
         (rest.takeWhile (tle secs)).foldl
           (fun acc s => consumeOne d secs s acc) st) := by
  induction rest with
  | nil => intro st; rfl
  | cons s rest ih =>
      intro st
      by_cases h : s.time ≤ (secs : ℚ)
      · have hb : tle secs s = true := by simp [tle, h]
        simp only [consumeLoop]
        rw [if_pos h, List.dropWhile_cons_of_pos hb,
          List.takeWhile_cons_of_pos hb, List.foldl_cons]
        exact ih (consumeOne d secs s st)
      · have hb : ¬ tle secs s = true := by simp [tle, h]
        simp only [consumeLoop]
        rw [if_neg h, List.dropWhile_cons_of_neg hb,
          List.takeWhile_cons_of_neg hb]
        rfl

theorem evictLoop_eq (smooth secs : ℤ) (l : List DataPoint) :
    ∀ (tot : RecalcTotals),
      evictLoop smooth secs l tot =
        (l.dropWhile (evictPred smooth secs),
         evictTotSub tot (l.takeWhile (evictPred smooth secs))) := by
  induction l with
  | nil => intro tot; simp [evictLoop, evictTotSub, sumBy]
  | cons dp rest ih =>
      intro tot
      by_cases h : dp.time < ((secs - smooth : ℤ) : ℚ)
      · have hb : evictPred smooth secs dp = true := by
          simp only [evictPred, decide_eq_true_eq]; exact h
        simp only [evictLoop]
        rw [if_pos h, List.dropWhile_cons_of_pos hb,
          List.takeWhile_cons_of_pos hb, ih]
        simp [evictTotSub, sumBy, sub_sub]
      · have hb : ¬ evictPred smooth secs dp = true := by
          simp only [evictPred, decide_eq_true_eq]; exact h
        simp only [evictLoop]
        rw [if_neg h, List.dropWhile_cons_of_neg hb,
          List.takeWhile_cons_of_neg hb]
        simp [evictTotSub, sumBy]

theorem tle_mono (c : ℤ) (a b : ConvPoint) (hab : a.time ≤ b.time)
    (hb : tle c b = true) : tle c a = true := by
  simp only [tle, decide_eq_true_eq] at hb ⊢
  linarith

theorem tle_pred (c : ℤ) (s : ConvPoint) (h : tle (c-1) s = true) :
    tle c s = true := by
  simp only [tle, decide_eq_true_eq] at h ⊢
  push_cast at h ⊢
  linarith

theorem evictPred_mono (smooth secs : ℤ) (a b : DataPoint)
    (hab : a.time ≤ b.time) (hb : evictPred smooth secs b = true) :
    evictPred smooth secs a = true := by
  simp only [evictPred, decide_eq_true_eq] at hb ⊢
  linarith

theorem tle_or_chunkPred (c : ℤ) (s : ConvPoint) :
    (tle (c-1) s || chunkPred c s) = tle c s := by
  cases h1 : tle (c-1) s
  · cases h2 : tle c s <;> simp [chunkPred, h1, h2]
  · simp [chunkPred, h1, tle_pred c s h1]

theorem winPred_combine (smooth c : ℤ) (s : ConvPoint) :
    (!decide (s.time < ((c - smooth : ℤ) : ℚ)) &&
      (winPred smooth (c-1) s || chunkPred c s)) = winPred smooth c s := by
  rw [Bool.eq_iff_iff]
  simp only [winPred, chunkPred, tle, Bool.and_eq_true, Bool.or_eq_true,
    Bool.not_eq_true', decide_eq_false_iff_not, decide_eq_true_eq]
  push_cast
  constructor
  · rintro ⟨h1, ⟨-, h⟩ | ⟨-, h⟩⟩
    · exact ⟨h1, by linarith⟩
    · exact ⟨h1, h⟩
  · rintro ⟨h1, h2⟩
    refine ⟨h1, ?_⟩
    by_cases hC : s.time ≤ (c : ℚ) - 1
    · exact Or.inl ⟨by linarith [not_lt.mp h1], hC⟩
    · exact Or.inr ⟨hC, h2⟩

theorem winPred_base (smooth : ℤ) (s : ConvPoint) :
    (!decide (s.time < ((smooth - smooth : ℤ) : ℚ)) && tle smooth s) =
      winPred smooth smooth s := rfl

theorem winPred_time_le (smooth c : ℤ) (a : ConvPoint)
    (h : winPred smooth c a = true) : a.time ≤ ((c : ℤ) : ℚ) := by
  simp only [winPred, tle, Bool.and_eq_true, decide_eq_true_eq] at h
  exact h.2

theorem chunkPred_time_gt (c : ℤ) (a : ConvPoint)
    (h : chunkPred c a = true) : ((c - 1 : ℤ) : ℚ) < a.time := by
  simp only [chunkPred, tle, Bool.and_eq_true, Bool.not_eq_true',
    decide_eq_false_iff_not, decide_eq_true_eq] at h
  push_cast
  push_cast at h
  linarith [not_le.mp h.1]

theorem consume_fold (d : PlotData) (secs : ℤ) (l : List ConvPoint) :
    ∀ (st : LoopState),
      l.foldl (fun acc s => consumeOne d secs s acc) st =
        { st with
          window := st.window ++ l.map (mkDataPoint d)
          tot := { st.tot with
            totalWatts := st.tot.totalWatts +
              sumBy (l.map (mkDataPoint d)) DataPoint.watts
            totalHr := st.tot.totalHr +
              sumBy (l.map (mkDataPoint d)) DataPoint.hr
            totalSpeed := st.tot.totalSpeed +
              sumBy (l.map (mkDataPoint d)) DataPoint.speed
            totalCad := st.tot.totalCad +
              sumBy (l.map (mkDataPoint d)) DataPoint.cad
            totalAlt := st.tot.totalAlt +
              sumBy (l.map (mkDataPoint d)) DataPoint.alt
            totalDist := ((l.getLast?).map ConvPoint.dist).getD st.tot.totalDist }
          lastInterval :=
            (l.foldl (interStepAt secs) (st.lastInterval, st.interList)).1
          interList :=
            (l.foldl (interStepAt secs) (st.lastInterval, st.interList)).2 } := by
  induction l with
  | nil => intro st; simp [sumBy]
  | cons s l ih =>
      intro st
      rw [List.foldl_cons, consumeOne_eq, ih]
      cases hl : l with
      | nil => simp [sumBy]
      | cons x xs =>
          simp [sumBy, add_assoc]
          rcases hy : (x :: xs).getLast? with - | y
          · simp at hy
          · simp [hy]

theorem upTo_split (d : PlotData) (hs : TimeSorted d.samples) (c : ℤ) :
    upTo d c = upTo d (c-1) ++ d.samples.filter (chunkPred c) := by
  unfold upTo
  have h := filter_append_filter_sorted (fun s : ConvPoint => s.time)
    (tle (c-1)) (chunkPred c) ((c-1 : ℤ) : ℚ)
    (fun a ha => by simpa only [tle, decide_eq_true_eq] using ha)
    (fun a ha => chunkPred_time_gt c a ha)
    d.samples hs
  rw [h]
  exact (List.filter_congr (fun s _ => tle_or_chunkPred c s)).symm

theorem take_rest_chunk (d : PlotData) (hs : TimeSorted d.samples) (c : ℤ) :
    (restSpec d (c-1)).takeWhile (tle c) = d.samples.filter (chunkPred c) := by
  have hsor : (restSpec d (c-1)).Pairwise
      (fun a b : ConvPoint => a.time ≤ b.time) := hs.filter _
  rw [takeWhile_eq_filter_mono (tle c) (tle_mono c) _ hsor]
  unfold restSpec
  rw [List.filter_filter]
  refine List.filter_congr (fun s _ => ?_)
  cases h1 : tle c s <;> cases h2 : tle (c-1) s <;>
    simp [chunkPred, h1, h2]

theorem drop_rest (d : PlotData) (hs : TimeSorted d.samples) (c : ℤ) :
    (restSpec d (c-1)).dropWhile (tle c) = restSpec d c := by
  have hsor : (restSpec d (c-1)).Pairwise
      (fun a b : ConvPoint => a.time ≤ b.time) := hs.filter _
  rw [dropWhile_eq_filter_mono (tle c) (tle_mono c) _ hsor]
  unfold restSpec
  rw [List.filter_filter]
  refine List.filter_congr (fun s _ => ?_)
  cases h1 : tle c s <;> cases h2 : tle (c-1) s <;>
    simp [h1, h2]
  exact absurd (tle_pred c s h2) (by simp [h1])

theorem take_samples_upTo (d : PlotData) (hs : TimeSorted d.samples) (c : ℤ) :
    d.samples.takeWhile (tle c) = upTo d c :=
  takeWhile_eq_filter_mono (tle c) (tle_mono c) d.samples hs

theorem drop_samples_rest (d : PlotData) (hs : TimeSorted d.samples) (c : ℤ) :
    d.samples.dropWhile (tle c) = restSpec d c :=
  dropWhile_eq_filter_mono (tle c) (tle_mono c) d.samples hs

theorem windowSpec_sorted (d : PlotData) (hs : TimeSorted d.samples)
    (q : ConvPoint → Bool) :
    ((d.samples.filter q).map (mkDataPoint d)).Pairwise
      (fun a b : DataPoint => a.time ≤ b.time) :=
  (hs.filter q).map (mkDataPoint d) (fun _ _ h => h)

theorem dropWhile_evict_map (d : PlotData) (hs : TimeSorted d.samples)
    (smooth c : ℤ) (q : ConvPoint → Bool) :
    ((d.samples.filter q).map (mkDataPoint d)).dropWhile (evictPred smooth c)
      = (d.samples.filter
          (fun s => !decide (s.time < ((c - smooth : ℤ) : ℚ)) && q s)).map
            (mkDataPoint d) := by
  rw [dropWhile_eq_filter_mono (evictPred smooth c) (evictPred_mono smooth c)
    _ (windowSpec_sorted d hs q)]
  rw [List.filter_map, List.filter_filter]
  rfl

theorem window_consume_step (d : PlotData) (hs : TimeSorted d.samples)
    (smooth c : ℤ) :
    windowSpec d smooth (c-1) ++
        (d.samples.filter (chunkPred c)).map (mkDataPoint d)
      = (d.samples.filter
          (fun s => winPred smooth (c-1) s || chunkPred c s)).map
            (mkDataPoint d) := by
  unfold windowSpec
  rw [← List.map_append]
  congr 1
  exact filter_append_filter_sorted (fun s : ConvPoint => s.time)
    (winPred smooth (c-1)) (chunkPred c) ((c-1 : ℤ) : ℚ)
    (fun a ha => winPred_time_le smooth (c-1) a ha)
    (fun a ha => chunkPred_time_gt c a ha)
    d.samples hs

theorem window_step (d : PlotData) (hs : TimeSorted d.samples)
    (smooth c : ℤ) :
    (windowSpec d smooth (c-1) ++
        (d.samples.filter (chunkPred c)).map (mkDataPoint d)).dropWhile
          (evictPred smooth c)
      = windowSpec d smooth c := by
  rw [window_consume_step d hs smooth c, dropWhile_evict_map d hs smooth c]
  unfold windowSpec
  congr 1
  exact List.filter_congr (fun s _ => winPred_combine smooth c s)

theorem window_base (d : PlotData) (hs : TimeSorted d.samples) (smooth : ℤ) :
    ((upTo d smooth).map (mkDataPoint d)).dropWhile (evictPred smooth smooth)
      = windowSpec d smooth smooth := by
  unfold upTo
  rw [dropWhile_evict_map d hs smooth smooth (tle smooth)]
  rfl

theorem sumBy_append (l₁ l₂ : List DataPoint) (f : DataPoint → ℚ) :
    sumBy (l₁ ++ l₂) f = sumBy l₁ f + sumBy l₂ f := by
  simp [sumBy]

theorem sumBy_take_drop (l : List DataPoint) (p : DataPoint → Bool)
    (f : DataPoint → ℚ) :
    sumBy (l.takeWhile p) f + sumBy (l.dropWhile p) f = sumBy l f := by
  rw [← sumBy_append, List.takeWhile_append_dropWhile]

theorem sumBy_drop (l : List DataPoint) (p : DataPoint → Bool)
    (f : DataPoint → ℚ) :
    sumBy (l.dropWhile p) f = sumBy l f - sumBy (l.takeWhile p) f := by
  have h := sumBy_take_drop l p f
  linarith

theorem binValD_split (d : PlotData) (hs : TimeSorted d.samples) (c : ℤ) :
    binValD d c =
      (((d.samples.filter (chunkPred c)).getLast?).map ConvPoint.dist).getD
        (binValD d (c-1)) := by
  unfold binValD
  rw [upTo_split d hs c, List.getLast?_append]
  rcases h : (d.samples.filter (chunkPred c)).getLast? with - | y <;>
    simp [h, Option.or]

theorem interSpec_split (d : PlotData) (hs : TimeSorted d.samples)
    (smooth c : ℤ) :
    interSpec d smooth c =
      (d.samples.filter (chunkPred c)).foldl (interStep smooth)
        (interSpec d smooth (c-1)) := by
  unfold interSpec
  rw [upTo_split d hs c, List.foldl_append]

theorem interStepAt_chunk (smooth c : ℤ) (hc : smooth + 1 ≤ c)
    (s : ConvPoint) (hcs : chunkPred c s = true) (acc : ℤ × List (ℚ × ℤ)) :
    interStepAt c acc s = interStep smooth acc s := by
  have hceil : ⌈s.time⌉ = c := by
    simp only [chunkPred, tle, Bool.and_eq_true, Bool.not_eq_true',
      decide_eq_false_iff_not, decide_eq_true_eq] at hcs
    have h1 : (c - 1 : ℤ) < ⌈s.time⌉ := by
      rw [Int.lt_ceil]
      push_cast
      linarith [not_le.mp hcs.1, (by push_cast; linarith : ((c - 1 : ℤ) : ℚ) = (c : ℚ) - 1)]
    have h2 : ⌈s.time⌉ ≤ c := Int.ceil_le.mpr hcs.2
    omega
  unfold interStepAt interStep
  rw [hceil, max_eq_right (by omega : smooth ≤ c)]

theorem interStepAt_base (smooth : ℤ) (s : ConvPoint)
    (hcs : tle smooth s = true) (acc : ℤ × List (ℚ × ℤ)) :
    interStepAt smooth acc s = interStep smooth acc s := by
  have hceil : ⌈s.time⌉ ≤ smooth := by
    simp only [tle, decide_eq_true_eq] at hcs
    exact Int.ceil_le.mpr hcs
  unfold interStepAt interStep
  rw [max_eq_left hceil]

theorem listGetI_concat (pk n : Nat) (f : Nat → ℚ) (hn : 1 ≤ n) :
    listGetI (List.replicate pk 0 ++ (List.range n).map f)
      ((pk : ℤ) + n - 1) = some (f (n - 1)) := by
  have hi : ((pk : ℤ) + n - 1) = ((pk + (n - 1) : ℕ) : ℤ) := by
    push_cast [Nat.cast_sub hn]
    ring
  have hlen : (List.replicate pk (0:ℚ) ++ (List.range n).map f).length
      = pk + n := by simp
  have hcond : 0 ≤ ((pk + (n - 1) : ℕ) : ℤ) ∧
      ((pk + (n - 1) : ℕ) : ℤ).toNat <
        (List.replicate pk (0:ℚ) ++ (List.range n).map f).length := by
    refine ⟨by positivity, ?_⟩
    rw [Int.toNat_natCast, hlen]
    omega
  rw [hi]
  unfold listGetI
  rw [dif_pos hcond]
  congr 1
  rw [List.get_eq_getElem]
  simp only [Int.toNat_natCast]
  rw [List.getElem_append_right
    (by simp : (List.replicate pk (0:ℚ)).length ≤ pk + (n-1))]
  simp

theorem listGetI_replicate (pk : Nat) (i : ℤ) (h0 : 0 ≤ i)
    (hpk : i < (pk : ℤ)) :
    listGetI (List.replicate pk 0) i = some 0 := by
  have hcond : 0 ≤ i ∧ i.toNat < (List.replicate pk (0:ℚ)).length := by
    refine ⟨h0, ?_⟩
    simp only [List.length_replicate]
    omega
  unfold listGetI
  rw [dif_pos hcond]
  congr 1
  rw [List.get_eq_getElem]
  simp

theorem binStep_base (d : PlotData) (smooth : ℤ) (hs : TimeSorted d.samples)
    (h1 : 1 ≤ smooth) :
    binStep d smooth smooth d.samples (initState smooth.toNat) =
      (restSpec d smooth, stateSpec d smooth smooth.toNat 1) := by
  simp only [binStep]
  rw [consumeLoop_eq, take_samples_upTo d hs smooth, drop_samples_rest d hs smooth,
    consume_fold, evictLoop_eq]
  simp only [initState, List.nil_append]
  rw [window_base d hs smooth]
  have hinter : List.foldl (interStepAt smooth) (0, []) (upTo d smooth) =
      List.foldl (interStep smooth) (0, []) (upTo d smooth) :=
    foldl_congr_fun _ (fun s hsm b =>
      interStepAt_base smooth s (List.mem_filter.mp hsm).2 b) _
  rw [hinter]
  simp only [evictTotSub, zero_add]
  simp only [← sumBy_drop]
  rw [window_base d hs smooth]
  have hsm1 : smooth + ((1:ℕ):ℤ) - 1 = smooth := by push_cast; ring
  simp only [stateSpec, hsm1, List.range_succ, List.range_zero,
    List.nil_append, List.map_cons, List.map_nil, Nat.cast_zero, add_zero,
    totalsSpec]
  split_ifs with hwin
  · have hwin' : windowSpec d smooth smooth = [] := by
      simpa [List.isEmpty_iff] using hwin
    rw [listGetI_replicate smooth.toNat (smooth - 1) (by omega) (by omega)]
    simp [binValD, binValBy, binValA, interSpec, hwin, hwin']
  · have hwin' : ¬ windowSpec d smooth smooth = [] := by
      simpa [List.isEmpty_iff] using hwin
    simp [binValD, binValBy, binValA, interSpec, hwin, hwin']

theorem binStep_step (d : PlotData) (smooth : ℤ) (hs : TimeSorted d.samples)
    (h1 : 1 ≤ smooth) (n : Nat) (hn : 1 ≤ n) :
    binStep d smooth (smooth + n) (restSpec d (smooth + n - 1))
        (stateSpec d smooth smooth.toNat n) =
      (restSpec d (smooth + n), stateSpec d smooth smooth.toNat (n + 1)) := by
  obtain ⟨m, rfl⟩ : ∃ m, n = m + 1 := ⟨n - 1, by omega⟩
  have hpk : ((smooth.toNat : ℕ) : ℤ) = smooth := Int.toNat_of_nonneg (by omega)
  simp only [binStep, stateSpec]
  rw [consumeLoop_eq, take_rest_chunk d hs (smooth + ((m+1:ℕ) : ℤ)),
    drop_rest d hs (smooth + ((m+1:ℕ) : ℤ)), consume_fold, evictLoop_eq]
  simp only [totalsSpec, evictTotSub]
  simp only [← sumBy_append]
  simp only [← sumBy_drop]
  rw [window_step d hs smooth (smooth + ((m+1:ℕ) : ℤ))]
  have hc2 : smooth + ((m + 1 + 1 : ℕ) : ℤ) - 1 = smooth + ((m + 1 : ℕ) : ℤ) := by
    push_cast
    ring
  have hinter : ∀ A : ℤ × List (ℚ × ℤ),
      (d.samples.filter (chunkPred (smooth + ((m+1:ℕ) : ℤ)))).foldl
        (interStepAt (smooth + ((m+1:ℕ) : ℤ))) A =
      (d.samples.filter (chunkPred (smooth + ((m+1:ℕ) : ℤ)))).foldl
        (interStep smooth) A := fun A =>
    foldl_congr_fun _ (fun s hsm b =>
      interStepAt_chunk smooth _ (by push_cast; omega) s
        (List.mem_filter.mp hsm).2 b) A
  simp only [Prod.mk.eta]
  rw [hinter, ← interSpec_split d hs smooth (smooth + ((m+1:ℕ) : ℤ)),
    ← binValD_split d hs (smooth + ((m+1:ℕ) : ℤ))]
  have hidx : smooth + ((m+1:ℕ):ℤ) - 1 =
      ((smooth.toNat : ℕ) : ℤ) + ((m+1:ℕ):ℤ) - 1 := by
    rw [hpk]
  rw [hidx, listGetI_concat smooth.toNat (m+1) (binValA d smooth) (by omega)]
  simp only [hc2, List.range_succ, List.map_append, List.map_cons, List.map_nil,
    List.append_assoc, List.cons_append, List.nil_append]
  split_ifs with hwin
  · have hwin' : windowSpec d smooth (smooth + ((m+1:ℕ):ℤ)) = [] := by
      simpa [List.isEmpty_iff] using hwin
    have hwin2 : windowSpec d smooth (smooth + ((m : ℤ) + 1)) = [] := by
      push_cast at hwin'
      exact hwin'
    simp [binValBy, binValA, hwin, hwin', hwin2, Nat.add_sub_cancel]
  · have hwin' : ¬ windowSpec d smooth (smooth + ((m+1:ℕ):ℤ)) = [] := by
      simpa [List.isEmpty_iff] using hwin
    have hwin2 : ¬ windowSpec d smooth (smooth + ((m : ℤ) + 1)) = [] := by
      push_cast at hwin'
      exact hwin'
    simp [binValBy, binValA, hwin, hwin', hwin2]

theorem mainLoop_from (d : PlotData) (smooth : ℤ) (hs : TimeSorted d.samples)
    (h1 : 1 ≤ smooth) :
    ∀ (fuel : Nat) (n : Nat), 1 ≤ n →
      mainLoop d smooth fuel (smooth + n) (restSpec d (smooth + n - 1))
          (stateSpec d smooth smooth.toNat n) =
        stateSpec d smooth smooth.toNat (n + fuel) := by
  intro fuel
  induction fuel with
  | zero => intro n hn; simp [mainLoop]
  | succ k ih =>
      intro n hn
      simp only [mainLoop]
      rw [binStep_step d smooth hs h1 n hn]
      have harg : smooth + (n : ℤ) + 1 = smooth + ((n + 1 : ℕ) : ℤ) := by
        push_cast
        ring
      have harg2 : restSpec d (smooth + (n : ℤ)) =
          restSpec d (smooth + ((n + 1 : ℕ) : ℤ) - 1) := by
        rw [show smooth + ((n + 1 : ℕ) : ℤ) - 1 = smooth + (n : ℤ) from by
          push_cast; ring]
      rw [harg, harg2, ih (n + 1) (by omega),
        show n + 1 + k = n + (k + 1) from by omega]

theorem mainLoop_run (d : PlotData) (smooth : ℤ) (hs : TimeSorted d.samples)
    (h1 : 1 ≤ smooth) (fuel : Nat) (hf : 1 ≤ fuel) :
    mainLoop d smooth fuel smooth d.samples (initState smooth.toNat) =
      stateSpec d smooth smooth.toNat fuel := by
  obtain ⟨k, rfl⟩ : ∃ k, fuel = k + 1 := ⟨fuel - 1, by omega⟩
  simp only [mainLoop]
  rw [binStep_base d smooth hs h1]
  have h1' : smooth + 1 = smooth + ((1 : ℕ) : ℤ) := by push_cast; ring
  have h2' : restSpec d smooth = restSpec d (smooth + ((1 : ℕ) : ℤ) - 1) := by
    rw [show smooth + ((1 : ℕ) : ℤ) - 1 = smooth from by push_cast; ring]
  rw [h1', h2', mainLoop_from d smooth hs h1 k 1 le_rfl, Nat.add_comm 1 k]

theorem padTo_self (n : Nat) (l : List ℚ) (h : l.length = n) :
    padTo n l = l := by
  unfold padTo
  rw [List.take_of_length_le (le_of_eq h), h, Nat.sub_self]
  simp

theorem timeArray_ne_empty (d : PlotData) (hne : d.samples ≠ []) :
    d.timeArray.isEmpty = false := by
  unfold PlotData.timeArray
  cases h : d.samples with
  | nil => exact absurd h hne
  | cons s l => simp

/-- Under the preconditions of the main claims (sorted samples, nonempty
ride, `1 ≤ smooth ≤ rideTimeSecs ≤ 7*24*60*60`), `recalc` is `recalcTail`
applied to the spec-level final loop state. -/
theorem recalc_state (d : PlotData) (smooth : ℤ) (bydist : Bool)
    (hs : TimeSorted d.samples) (hne : d.samples ≠ [])
    (h1 : 1 ≤ smooth) (h2 : smooth ≤ rideTimeSecsOf d)
    (h7 : rideTimeSecsOf d ≤ 7*24*60*60) :
    recalc d smooth bydist =
      recalcTail d bydist (rideTimeSecsOf d)
        (stateSpec d smooth smooth.toNat
          ((rideTimeSecsOf d + 1 - smooth).toNat)) := by
  unfold recalc
  rw [timeArray_ne_empty d hne]
  simp only [Bool.false_eq_true, if_false]
  rw [if_neg (by omega : ¬ rideTimeSecsOf d > 7*24*60*60)]
  rw [min_eq_left h2]
  rw [mainLoop_run d smooth hs h1 _ (by omega)]

theorem listGetI_eq_getElem (l : List ℚ) (i : ℤ) (h0 : 0 ≤ i) :
    listGetI l i = l[i.toNat]? := by
  unfold listGetI
  split_ifs with h
  · rw [List.getElem?_eq_getElem h.2]
    rfl
  · rcases Nat.lt_or_ge i.toNat l.length with hlt | hge
    · exact absurd ⟨h0, hlt⟩ h
    · rw [List.getElem?_eq_none hge]

theorem listGetI_isSome (l : List ℚ) (i : ℤ) (h0 : 0 ≤ i)
    (hi : i.toNat < l.length) : (listGetI l i).isSome = true := by
  unfold listGetI
  rw [dif_pos ⟨h0, hi⟩]
  rfl

theorem listGetI_spec_out (pk n : Nat) (f : Nat → ℚ) (i : ℤ)
    (h0 : (pk : ℤ) ≤ i) (hi : i < pk + n) :
    listGetI (List.replicate pk 0 ++ (List.range n).map f) i =
      some (f (i.toNat - pk)) := by
  have h0' : 0 ≤ i := le_trans (by positivity) h0
  rw [listGetI_eq_getElem _ _ h0']
  rw [List.getElem?_append_right (by simp; omega)]
  simp only [List.length_replicate]
  rw [List.getElem?_map]
  rw [List.getElem?_eq_getElem (by simp; omega)]
  simp

theorem binStep_alt_shape (d : PlotData) (smooth secs : ℤ)
    (rest : List ConvPoint) (st : LoopState) (hok : st.altOk = true)
    (hlen : (st.outAlt.length : ℤ) = secs) (hsec : 1 ≤ secs) :
    (binStep d smooth secs rest st).2.altOk = true ∧
    ((binStep d smooth secs rest st).2.outAlt.length : ℤ) = secs + 1 := by
  simp only [binStep]
  rw [consumeLoop_eq, consume_fold, evictLoop_eq]
  split_ifs with hwin
  · constructor
    · simp only [hok, Bool.true_and]
      exact listGetI_isSome _ _ (by omega) (by omega)
    · simp only [List.length_append, List.length_cons, List.length_nil]
      omega
  · refine ⟨hok, ?_⟩
    simp only [List.length_append, List.length_cons, List.length_nil]
    omega

theorem mainLoop_altOk (d : PlotData) (smooth : ℤ) :
    ∀ (fuel : Nat) (secs : ℤ) (rest : List ConvPoint) (st : LoopState),
      st.altOk = true → (st.outAlt.length : ℤ) = secs → 1 ≤ secs →
      (mainLoop d smooth fuel secs rest st).altOk = true := by
  intro fuel
  induction fuel with
  | zero => intro secs rest st hok _ _; simpa [mainLoop] using hok
  | succ k ih =>
      intro secs rest st hok hlen hsec
      simp only [mainLoop]
      obtain ⟨hok', hlen'⟩ := binStep_alt_shape d smooth secs rest st hok hlen hsec
      exact ih (secs + 1) _ _ hok' hlen' (by omega)

theorem recalcTail_smoothWatts (d : PlotData) (bydist : Bool) (rts : ℤ)
    (st : LoopState) :
    (recalcTail d bydist rts st).smoothWatts = padTo (rts+1).toNat st.outWatts := rfl

theorem recalcTail_smoothHr (d : PlotData) (bydist : Bool) (rts : ℤ)
    (st : LoopState) :
    (recalcTail d bydist rts st).smoothHr = padTo (rts+1).toNat st.outHr := rfl

theorem recalcTail_smoothSpeed (d : PlotData) (bydist : Bool) (rts : ℤ)
    (st : LoopState) :
    (recalcTail d bydist rts st).smoothSpeed = padTo (rts+1).toNat st.outSpeed := rfl

theorem recalcTail_smoothCad (d : PlotData) (bydist : Bool) (rts : ℤ)
    (st : LoopState) :
    (recalcTail d bydist rts st).smoothCad = padTo (rts+1).toNat st.outCad := rfl

theorem recalcTail_smoothDistance (d : PlotData) (bydist : Bool) (rts : ℤ)
    (st : LoopState) :
    (recalcTail d bydist rts st).smoothDistance = padTo (rts+1).toNat st.outDist := rfl

theorem recalcTail_markers (d : PlotData) (bydist : Bool) (rts : ℤ)
    (st : LoopState) :
    (recalcTail d bydist rts st).markers = some (st.interList.map (fun kv =>
      { key := kv.1, label := kv.2
        x := if !bydist then kv.1
          else (listGetI (padTo (rts+1).toNat st.outDist)
            ⌈(60 : ℚ) * kv.1⌉).getD 0 })) := rfl

theorem recalcTail_altOk (d : PlotData) (bydist : Bool) (rts : ℤ)
    (st : LoopState) :
    (recalcTail d bydist rts st).altOk = st.altOk := rfl

theorem wattsArray_isEmpty_false (d : PlotData) (hp : d.pres.watts = true)
    (hne : d.samples ≠ []) : d.wattsArray.isEmpty = false := by
  unfold PlotData.wattsArray
  rw [if_pos hp]
  cases h : d.samples with
  | nil => exact absurd h hne
  | cons s l => simp

theorem hrArray_isEmpty_false (d : PlotData) (hp : d.pres.hr = true)
    (hne : d.samples ≠ []) : d.hrArray.isEmpty = false := by
  unfold PlotData.hrArray
  rw [if_pos hp]
  cases h : d.samples with
  | nil => exact absurd h hne
  | cons s l => simp

theorem speedArray_isEmpty_false (d : PlotData) (hp : d.pres.kph = true)
    (hne : d.samples ≠ []) : d.speedArray.isEmpty = false := by
  unfold PlotData.speedArray
  rw [if_pos hp]
  cases h : d.samples with
  | nil => exact absurd h hne
  | cons s l => simp

theorem cadArray_isEmpty_false (d : PlotData) (hp : d.pres.cad = true)
    (hne : d.samples ≠ []) : d.cadArray.isEmpty = false := by
  unfold PlotData.cadArray
  rw [if_pos hp]
  cases h : d.samples with
  | nil => exact absurd h hne
  | cons s l => simp

theorem windowSpec_claim (d : PlotData) (smooth secs : ℤ) :
    windowSpec d smooth secs = (claimWindow d smooth secs).map (mkDataPoint d) := by
  unfold windowSpec claimWindow
  congr 1
  refine List.filter_congr (fun s _ => ?_)
  rw [Bool.eq_iff_iff]
  simp only [winPred, tle, Bool.and_eq_true, Bool.not_eq_true',
    decide_eq_false_iff_not, decide_eq_true_eq]
  constructor
  · rintro ⟨h1, h2⟩
    exact ⟨not_lt.mp h1, h2⟩
  · rintro ⟨h1, h2⟩
    exact ⟨not_lt.mpr h1, h2⟩

theorem sumBy_map_watts (d : PlotData) (hne : d.wattsArray.isEmpty = false)
    (l : List ConvPoint) :
    sumBy (l.map (mkDataPoint d)) DataPoint.watts = (l.map ConvPoint.watts).sum := by
  unfold sumBy
  rw [List.map_map]
  congr 1
  refine List.map_congr_left (fun s _ => ?_)
  simp [mkDataPoint, hne]

theorem sumBy_map_hr (d : PlotData) (hne : d.hrArray.isEmpty = false)
    (l : List ConvPoint) :
    sumBy (l.map (mkDataPoint d)) DataPoint.hr = (l.map ConvPoint.hr).sum := by
  unfold sumBy
  rw [List.map_map]
  congr 1
  refine List.map_congr_left (fun s _ => ?_)
  simp [mkDataPoint, hne]

theorem sumBy_map_speed (d : PlotData) (hne : d.speedArray.isEmpty = false)
    (l : List ConvPoint) :
    sumBy (l.map (mkDataPoint d)) DataPoint.speed = (l.map ConvPoint.speed).sum := by
  unfold sumBy
  rw [List.map_map]
  congr 1
  refine List.map_congr_left (fun s _ => ?_)
  simp [mkDataPoint, hne]

theorem sumBy_map_cad (d : PlotData) (hne : d.cadArray.isEmpty = false)
    (l : List ConvPoint) :
    sumBy (l.map (mkDataPoint d)) DataPoint.cad = (l.map ConvPoint.cad).sum := by
  unfold sumBy
  rw [List.map_map]
  congr 1
  refine List.map_congr_left (fun s _ => ?_)
  simp [mkDataPoint, hne]

/-- C1: for a ride sorted by time whose last timestamp is at most
`7*24*60*60` and any smoothing window `smooth ≥ 1`, `recalc` computes, for
each whole-second bin `secs` with `smooth ≤ secs ≤ ceil(last timestamp)`
whose window is inhabited, the smoothed watts, heart rate, speed and cadence
as the unweighted arithmetic mean of all samples with
`secs - smooth ≤ t ≤ secs`; in particular the smoother is causal, since the
value at `secs` is a function of `claimWindow`, which contains only samples
with `t ≤ secs`. -/
theorem C1_recalc_causal_moving_average (d : PlotData) (smooth secs : ℤ) (bydist : Bool)
    (hs : TimeSorted d.samples) (hne : d.samples ≠ [])
    (hlast : (d.timeArray.getLast?).getD 0 ≤ 7*24*60*60)
    (h1 : 1 ≤ smooth)
    (hlo : smooth ≤ secs) (hhi : secs ≤ rideTimeSecsOf d)
    (hw : d.pres.watts = true) (hh : d.pres.hr = true)
    (hk : d.pres.kph = true) (hc : d.pres.cad = true)
    (hwin : claimWindow d smooth secs ≠ []) :
    listGetI (recalc d smooth bydist).smoothWatts secs =
      some (((claimWindow d smooth secs).map ConvPoint.watts).sum /
        ((claimWindow d smooth secs).length : ℚ)) ∧
    listGetI (recalc d smooth bydist).smoothHr secs =
      some (((claimWindow d smooth secs).map ConvPoint.hr).sum /
        ((claimWindow d smooth secs).length : ℚ)) ∧
    listGetI (recalc d smooth bydist).smoothSpeed secs =
      some (((claimWindow d smooth secs).map ConvPoint.speed).sum /
        ((claimWindow d smooth secs).length : ℚ)) ∧
    listGetI (recalc d smooth bydist).smoothCad secs =
      some (((claimWindow d smooth secs).map ConvPoint.cad).sum /
        ((claimWindow d smooth secs).length : ℚ)) := by
  have h7 : rideTimeSecsOf d ≤ 7*24*60*60 := by
    unfold rideTimeSecsOf
    exact Int.ceil_le.mpr (by exact_mod_cast hlast)
  have h2 : smooth ≤ rideTimeSecsOf d := le_trans hlo hhi
  rw [recalc_state d smooth bydist hs hne h1 h2 h7]
  rw [recalcTail_smoothWatts, recalcTail_smoothHr, recalcTail_smoothSpeed,
    recalcTail_smoothCad]
  simp only [stateSpec]
  have hlen : ∀ (g : ℕ → ℚ), (List.replicate smooth.toNat (0:ℚ) ++
      (List.range ((rideTimeSecsOf d + 1 - smooth).toNat)).map g).length
      = (rideTimeSecsOf d + 1).toNat := by
    intro g
    simp only [List.length_append, List.length_replicate, List.length_map,
      List.length_range]
    omega
  rw [padTo_self _ _ (hlen _), padTo_self _ _ (hlen _), padTo_self _ _ (hlen _),
    padTo_self _ _ (hlen _)]
  rw [listGetI_spec_out _ _ _ secs (by omega) (by omega),
    listGetI_spec_out _ _ _ secs (by omega) (by omega),
    listGetI_spec_out _ _ _ secs (by omega) (by omega),
    listGetI_spec_out _ _ _ secs (by omega) (by omega)]
  have hsecs : smooth + ((secs.toNat - smooth.toNat : ℕ) : ℤ) = secs := by omega
  rw [hsecs]
  have hwinNe : ¬ (windowSpec d smooth secs).isEmpty = true := by
    rw [windowSpec_claim]
    simpa [List.isEmpty_iff] using hwin
  simp only [binValBy]
  rw [if_neg hwinNe, if_neg hwinNe, if_neg hwinNe, if_neg hwinNe]
  rw [windowSpec_claim]
  rw [sumBy_map_watts d (wattsArray_isEmpty_false d hw hne),
    sumBy_map_hr d (hrArray_isEmpty_false d hh hne),
    sumBy_map_speed d (speedArray_isEmpty_false d hk hne),
    sumBy_map_cad d (cadArray_isEmpty_false d hc hne)]
  simp [List.length_map]

theorem exPlot_sorted : TimeSorted exPlot.samples := by
  unfold TimeSorted
  decide

theorem exPlot_last : (exPlot.timeArray.getLast?).getD 0 ≤ 7*24*60*60 := by
  norm_num [exPlot, PlotData.timeArray]

theorem exPlot_rts : rideTimeSecsOf exPlot = 2 := by
  unfold rideTimeSecsOf exPlot PlotData.timeArray
  norm_num

/-- Witness for C1 at the concrete ride `exPlot`, bin 2, window 1. -/
theorem C1_recalc_causal_moving_average_witness :
    listGetI (recalc exPlot 1 false).smoothWatts 2 =
      some (((claimWindow exPlot 1 2).map ConvPoint.watts).sum /
        ((claimWindow exPlot 1 2).length : ℚ)) :=
  (C1_recalc_causal_moving_average exPlot 1 2 false exPlot_sorted (by decide)
    exPlot_last (by decide) (by decide) (by rw [exPlot_rts]) rfl rfl rfl rfl
    (by decide)).1

/-- C8: on a ride whose last sample timestamp exceeds `7*24*60*60` seconds,
`recalc` assigns an empty data series to every curve whose channel is
present and returns immediately: no smoothed values, no axis rescaling, no
zone labels and no interval markers. -/
theorem C8_week_limit_early_return (d : PlotData) (smooth : ℤ) (bydist : Bool)
    (hne : d.samples ≠ [])
    (hbig : 7*24*60*60 < (d.timeArray.getLast?).getD 0) :
    (recalc d smooth bydist).earlyReturn = true ∧
    (recalc d smooth bydist).wattsCurveData =
      (if !d.wattsArray.isEmpty then some [] else none) ∧
    (recalc d smooth bydist).hrCurveData =
      (if !d.hrArray.isEmpty then some [] else none) ∧
    (recalc d smooth bydist).speedCurveData =
      (if !d.speedArray.isEmpty then some [] else none) ∧
    (recalc d smooth bydist).cadCurveData =
      (if !d.cadArray.isEmpty then some [] else none) ∧
    (recalc d smooth bydist).altCurveData =
      (if !d.altArray.isEmpty then some [] else none) ∧
    (recalc d smooth bydist).smoothWatts = [] ∧
    (recalc d smooth bydist).xAxisScale = none ∧
    (recalc d smooth bydist).yMaxCalled = false ∧
    (recalc d smooth bydist).zoneLabelsRefreshed = false ∧
    (recalc d smooth bydist).markers = none := by
  have h7 : 7*24*60*60 < rideTimeSecsOf d := by
    unfold rideTimeSecsOf
    rw [Int.lt_ceil]
    exact_mod_cast hbig
  unfold recalc
  rw [timeArray_ne_empty d hne]
  simp only [Bool.false_eq_true, if_false]
  rw [if_pos h7]
  exact ⟨rfl, rfl, rfl, rfl, rfl, rfl, rfl, rfl, rfl, rfl, rfl⟩

/-- Witness for C8 at the concrete over-long ride `exLong`. -/
theorem C8_week_limit_early_return_witness :
    (recalc exLong 30 false).earlyReturn = true ∧
    (recalc exLong 30 false).wattsCurveData =
      (if !exLong.wattsArray.isEmpty then some [] else none) ∧
    (recalc exLong 30 false).hrCurveData =
      (if !exLong.hrArray.isEmpty then some [] else none) ∧
    (recalc exLong 30 false).speedCurveData =
      (if !exLong.speedArray.isEmpty then some [] else none) ∧
    (recalc exLong 30 false).cadCurveData =
      (if !exLong.cadArray.isEmpty then some [] else none) ∧
    (recalc exLong 30 false).altCurveData =
      (if !exLong.altArray.isEmpty then some [] else none) ∧
    (recalc exLong 30 false).smoothWatts = [] ∧
    (recalc exLong 30 false).xAxisScale = none ∧
    (recalc exLong 30 false).yMaxCalled = false ∧
    (recalc exLong 30 false).zoneLabelsRefreshed = false ∧
    (recalc exLong 30 false).markers = none :=
  C8_week_limit_early_return exLong 30 false (by decide)
    (by norm_num [exLong, PlotData.timeArray])

theorem exOne_rts : rideTimeSecsOf exOne = 1 := by
  unfold rideTimeSecsOf exOne PlotData.timeArray
  norm_num

/-- C10: for every plot state and `smooth ≥ 1`, every
`smoothAltitude[secs - 1]` fallback read performed by `recalc` is in
bounds (`altOk`); and for `smooth = 0` with a first sample timestamp
greater than `0`, the read is out of bounds at the first bin. -/
theorem C10_alt_fallback_in_bounds :
    (∀ (d : PlotData) (smooth : ℤ) (bydist : Bool), 1 ≤ smooth →
      (recalc d smooth bydist).altOk = true) ∧
    (recalc exOne 0 false).altOk = false := by
  constructor
  · intro d smooth bydist h1
    unfold recalc
    cases hempty : d.timeArray.isEmpty
    · simp only [Bool.false_eq_true, if_false]
      by_cases hbig : rideTimeSecsOf d > 7*24*60*60
      · rw [if_pos hbig]
      · rw [if_neg hbig]
        rw [recalcTail_altOk]
        rcases Nat.eq_zero_or_pos ((rideTimeSecsOf d + 1 - smooth).toNat)
          with hf | hf
        · rw [hf]
          simp [mainLoop, initState]
        · have hsm : smooth ≤ rideTimeSecsOf d := by omega
          apply mainLoop_altOk
          · rfl
          · simp only [initState, List.length_replicate]
            rw [min_eq_left hsm]
            omega
          · omega
      
    · simp
  · unfold recalc
    rw [exOne_rts]
    norm_num [exOne, PlotData.timeArray, recalcTail, mainLoop, binStep,
      consumeLoop, consumeOne, evictLoop, initState, padTo, listGetI,
      mkDataPoint]

/-- Witness for C10 at the concrete ride `exOne` with `smooth = 1`. -/
theorem C10_alt_fallback_in_bounds_witness :
    (recalc exOne 1 false).altOk = true :=
  C10_alt_fallback_in_bounds.1 exOne 1 false (by decide)

theorem zoneBands_spec (yMap : ℤ → ℤ) (rect : QRect)
    (hmono : ∀ a b : ℤ, a ≤ b → yMap b ≤ yMap a) :
    ∀ (lows : List ℤ), lows.Pairwise (· ≤ ·) →
      (∀ l ∈ lows, rect.top ≤ yMap l) →
      zoneBands yMap rect lows = specBands yMap rect lows := by
  intro lows
  induction lows with
  | nil => intro _ _; rfl
  | cons l rest ih =>
      intro hson htop
      rw [List.pairwise_cons] at hson
      cases rest with
      | nil =>
          unfold zoneBands specBands
          rw [if_pos (htop l (by simp))]
      | cons l' rest' =>
          unfold zoneBands specBands
          rw [if_pos (hmono l l' (hson.1 l' (by simp)))]
          rw [ih hson.2 (fun x hx => htop x (by simp [hx]))]
          rfl

/-- C6: power-zone background shading is active iff shading was enabled
(`shade_zones`, set exactly when `showPower` is called with `id == 0`) and
power data is present; when additionally the ride has zones and a
nonnegative zone range, one band per zone is drawn, from the zone's low
value up to the next zone's low value, the topmost extending to the top of
the plot. -/
theorem C6_zone_shading (sz : Bool) (d : PlotData) (z : Zones) (range : ℤ)
    (yMap : ℤ → ℤ) (rect : QRect) (id : ℤ)
    (hmono : ∀ a b : ℤ, a ≤ b → yMap b ≤ yMap a)
    (hrange : 0 ≤ range)
    (hsorted : (z.getZoneLows range).Pairwise (· ≤ ·))
    (htop : ∀ l ∈ z.getZoneLows range, rect.top ≤ yMap l) :
    (shadeZonesFn sz d = (sz && !d.wattsArray.isEmpty)) ∧
    ((showPower id).shade_zones = decide (id = 0) ∧
     (showPower id).wattsVisible = decide (id < 2)) ∧
    (shadeZonesFn sz d = false →
      ∀ ri, backgroundDraw sz d ri yMap rect = []) ∧
    (shadeZonesFn sz d = true →
      backgroundDraw sz d (some ⟨some (some z), range⟩) yMap rect =
        specBands yMap rect (z.getZoneLows range)) := by
  refine ⟨rfl, ⟨rfl, rfl⟩, ?_, ?_⟩
  · intro hoff ri
    unfold backgroundDraw
    match ri with
    | none => rfl
    | some ⟨none, r⟩ => rfl
    | some ⟨some none, r⟩ => rfl
    | some ⟨some (some z'), r⟩ => simp [hoff]
  · intro hon
    unfold backgroundDraw
    simp only [ge_iff_le, hon, hrange, decide_eq_true_eq, decide_True,
      Bool.and_self, if_true]
    exact zoneBands_spec yMap rect hmono _ hsorted htop

/-- Witness for C6 at a concrete plot state and zone set. -/
theorem C6_zone_shading_witness :
    (shadeZonesFn true exPlot = (true && !exPlot.wattsArray.isEmpty)) ∧
    ((showPower 0).shade_zones = decide ((0:ℤ) = 0) ∧
     (showPower 0).wattsVisible = decide ((0:ℤ) < 2)) ∧
    (shadeZonesFn true exPlot = false →
      ∀ ri, backgroundDraw true exPlot ri (fun v => 1000 - v)
        ⟨0, 1000⟩ = []) ∧
    (shadeZonesFn true exPlot = true →
      backgroundDraw true exPlot (some ⟨some (some exZones), 0⟩)
          (fun v => 1000 - v) ⟨0, 1000⟩ =
        specBands (fun v => 1000 - v) ⟨0, 1000⟩ (exZones.getZoneLows 0)) :=
  C6_zone_shading true exPlot exZones 0 (fun v => 1000 - v) ⟨0, 1000⟩ 0
    (fun a b h => by dsimp only; omega) (by decide) (by decide) (by decide)

theorem key_div_inj (k k' : ℤ) (h : ((k : ℚ) / 60) = ((k' : ℚ) / 60)) :
    k = k' := by
  field_simp at h
  exact_mod_cast h

theorem mapInsert_binInsert (k v : ℤ) (m : List (ℤ × ℤ)) :
    mapInsert ((k : ℚ) / 60) v
        (m.map (fun p : ℤ × ℤ => (((p.1 : ℤ) : ℚ) / 60, p.2))) =
      (binInsert k v m).map (fun p : ℤ × ℤ => (((p.1 : ℤ) : ℚ) / 60, p.2)) := by
  induction m with
  | nil => rfl
  | cons p rest ih =>
      obtain ⟨k', v'⟩ := p
      simp only [List.map_cons]
      unfold mapInsert binInsert
      by_cases h : k = k'
      · rw [if_pos (by rw [h]), if_pos h]
        simp [h]
      · rw [if_neg (fun heq => h (key_div_inj k k' heq)), if_neg h]
        simp only [List.map_cons]
        rw [← ih]

theorem interStep_specStep (smooth : ℤ) :
    ∀ (l : List ConvPoint) (j : ℤ) (mi : List (ℤ × ℤ)),
      l.foldl (interStep smooth)
          (j, mi.map (fun p : ℤ × ℤ => (((p.1 : ℤ) : ℚ) / 60, p.2))) =
        ((l.foldl (specStep smooth) (j, mi)).1,
         (l.foldl (specStep smooth) (j, mi)).2.map
           (fun p : ℤ × ℤ => (((p.1 : ℤ) : ℚ) / 60, p.2))) := by
  intro l
  induction l with
  | nil => intro j mi; rfl
  | cons s rest ih =>
      intro j mi
      rw [List.foldl_cons, List.foldl_cons]
      unfold interStep specStep
      by_cases h : j ≠ s.inter
      · rw [if_pos h, if_pos h]
        rw [mapInsert_binInsert]
        exact ih s.inter (binInsert (max smooth ⌈s.time⌉) s.inter mi)
      · rw [if_neg h, if_neg h]
        exact ih j mi

theorem interSpec_eq_bins (d : PlotData) (smooth c : ℤ) :
    (interSpec d smooth c).2 =
      (specInterBins d smooth c).map
        (fun p : ℤ × ℤ => (((p.1 : ℤ) : ℚ) / 60, p.2)) := by
  unfold interSpec specInterBins
  have h := interStep_specStep smooth (upTo d c) 0 []
  simp only [List.map_nil] at h
  rw [h]

theorem mem_keys_binInsert (k v a : ℤ) (m : List (ℤ × ℤ)) :
    a ∈ (binInsert k v m).map Prod.fst →
    a = k ∨ a ∈ m.map Prod.fst := by
  induction m with
  | nil =>
      intro ha
      unfold binInsert at ha
      simpa using ha
  | cons p rest ih =>
      intro ha
      obtain ⟨k', v'⟩ := p
      unfold binInsert at ha
      by_cases h : k = k'
      · rw [if_pos h] at ha
        simp only [List.map_cons, List.mem_cons] at ha ⊢
        rcases ha with rfl | ha
        · exact Or.inl rfl
        · exact Or.inr (Or.inr ha)
      · rw [if_neg h] at ha
        simp only [List.map_cons, List.mem_cons] at ha ⊢
        rcases ha with rfl | ha
        · exact Or.inr (Or.inl rfl)
        · rcases ih ha with h' | h'
          · exact Or.inl h'
          · exact Or.inr (Or.inr h')

theorem binInsert_keys_nodup (k v : ℤ) (m : List (ℤ × ℤ))
    (h : (m.map Prod.fst).Nodup) :
    ((binInsert k v m).map Prod.fst).Nodup := by
  induction m with
  | nil => simp [binInsert]
  | cons p rest ih =>
      unfold binInsert
      simp only [List.map_cons, List.nodup_cons] at h
      by_cases hk : k = p.1
      · rw [if_pos hk]
        simp only [List.map_cons, List.nodup_cons]
        exact ⟨by rw [hk]; exact h.1, h.2⟩
      · rw [if_neg hk]
        simp only [List.map_cons, List.nodup_cons]
        refine ⟨?_, ih h.2⟩
        intro hmem
        rcases mem_keys_binInsert k v p.1 rest hmem with h' | h'
        · exact hk h'.symm
        · exact h.1 h'

theorem specFold_keys_nodup (smooth : ℤ) :
    ∀ (l : List ConvPoint) (acc : ℤ × List (ℤ × ℤ)),
      (acc.2.map Prod.fst).Nodup →
      ((l.foldl (specStep smooth) acc).2.map Prod.fst).Nodup := by
  intro l
  induction l with
  | nil => intro acc h; exact h
  | cons s rest ih =>
      intro acc h
      rw [List.foldl_cons]
      apply ih
      unfold specStep
      by_cases hj : acc.1 ≠ s.inter
      · rw [if_pos hj]
        exact binInsert_keys_nodup _ _ _ h
      · rw [if_neg hj]
        exact h

theorem specInterBins_keys_nodup (d : PlotData) (smooth c : ℤ) :
    ((specInterBins d smooth c).map Prod.fst).Nodup :=
  specFold_keys_nodup smooth (upTo d c) (0, []) (by simp)

theorem mem_binInsert (k v : ℤ) (m : List (ℤ × ℤ)) (p : ℤ × ℤ)
    (hp : p ∈ binInsert k v m) : p = (k, v) ∨ p ∈ m := by
  induction m with
  | nil => simpa [binInsert] using hp
  | cons q rest ih =>
      unfold binInsert at hp
      by_cases h : k = q.1
      · rw [if_pos h] at hp
        rcases List.mem_cons.mp hp with rfl | hp'
        · exact Or.inl rfl
        · exact Or.inr (List.mem_cons.mpr (Or.inr hp'))
      · rw [if_neg h] at hp
        rcases List.mem_cons.mp hp with rfl | hp'
        · exact Or.inr (List.mem_cons.mpr (Or.inl rfl))
        · rcases ih hp' with h' | h'
          · exact Or.inl h'
          · exact Or.inr (List.mem_cons.mpr (Or.inr h'))

theorem specFold_keys_range (smooth c : ℤ) (hc : smooth ≤ c) :
    ∀ (l : List ConvPoint), (∀ s ∈ l, s.time ≤ (c : ℚ)) →
      ∀ (acc : ℤ × List (ℤ × ℤ)),
      (∀ p ∈ acc.2, smooth ≤ p.1 ∧ p.1 ≤ c) →
      ∀ p ∈ (l.foldl (specStep smooth) acc).2, smooth ≤ p.1 ∧ p.1 ≤ c := by
  intro l
  induction l with
  | nil => intro _ acc hacc; exact hacc
  | cons s rest ih =>
      intro hl acc hacc
      rw [List.foldl_cons]
      refine ih (fun x hx => hl x (by simp [hx])) _ ?_
      unfold specStep
      by_cases hj : acc.1 ≠ s.inter
      · rw [if_pos hj]
        intro p hp
        rcases mem_binInsert _ _ _ p hp with rfl | hp'
        · constructor
          · exact le_max_left _ _
          · apply max_le hc
            exact Int.ceil_le.mpr (hl s (by simp))
        · exact hacc p hp'
      · rw [if_neg hj]
        exact hacc

theorem specInterBins_keys_range (d : PlotData) (smooth c : ℤ)
    (hc : smooth ≤ c) :
    ∀ p ∈ specInterBins d smooth c, smooth ≤ p.1 ∧ p.1 ≤ c := by
  intro p hp
  refine specFold_keys_range smooth c hc (upTo d c) ?_ (0, []) (by simp) p hp
  intro s hs
  have := List.mem_filter.mp hs
  simpa [tle] using this.2

theorem stateSpec_interList (d : PlotData) (smooth : ℤ) (pk n : Nat) :
    (stateSpec d smooth pk n).interList =
      (interSpec d smooth (smooth + n - 1)).2 := rfl

theorem exInter_sorted : TimeSorted exInter.samples := by
  unfold TimeSorted exInter
  simp only [List.pairwise_cons, List.mem_singleton, List.not_mem_nil,
    List.Pairwise.nil, and_true, forall_eq, IsEmpty.forall_iff, imp_true_iff]
  norm_num

theorem exInter_rts : rideTimeSecsOf exInter = 1 := by
  unfold rideTimeSecsOf exInter PlotData.timeArray
  rw [show (([⟨1/5, 100, 60, 10, 80, 5, 1, 1⟩,
    ⟨1/2, 200, 70, 12, 82, 6, 2, 2⟩] : List ConvPoint).map
    ConvPoint.time).getLast?.getD 0 = ((1:ℚ)/2) from rfl]
  rw [Int.ceil_eq_iff]
  constructor <;> norm_num

/-- Counterexample for C5 as stated: the ride exInter has two interval
transitions, both consumed in per-second bin 1, yet recalc creates a
single marker (the QMap key secs/60 collides), labelled with the last
interval number. -/
theorem C5_interval_markers_counterexample :
    transitionCount exInter.samples = 2 ∧
    (recalc exInter 1 false).markers =
      some [{ key := (1:ℚ)/60, label := 2, x := (1:ℚ)/60 }] := by
  refine ⟨by decide, ?_⟩
  unfold recalc
  rw [exInter_rts]
  norm_num [exInter, PlotData.timeArray, recalcTail, mainLoop, binStep,
    consumeLoop, consumeOne, evictLoop, initState, padTo, listGetI,
    mkDataPoint, mapInsert]

/-- C5 (amended): interval markers.  For every per-second bin in which at
least one interval transition is consumed, exactly one marker is created
(the bin keys are pairwise distinct), labelled with the interval number of
the last transition consumed in that bin, positioned at `secs/60` minutes
where `secs` is that bin (or, in distance mode, at the smoothed cumulative
distance of that bin); bins containing no transition produce no marker. -/
theorem C5_interval_markers (d : PlotData) (smooth : ℤ) (bydist : Bool)
    (hs : TimeSorted d.samples) (hne : d.samples ≠ [])
    (h1 : 1 ≤ smooth) (h2 : smooth ≤ rideTimeSecsOf d)
    (h7 : rideTimeSecsOf d ≤ 7*24*60*60) :
    (recalc d smooth bydist).markers =
      some ((specInterBins d smooth (rideTimeSecsOf d)).map
        (fun p : ℤ × ℤ =>
          { key := ((p.1 : ℤ) : ℚ) / 60, label := p.2
            x := if !bydist then ((p.1 : ℤ) : ℚ) / 60
              else (listGetI (recalc d smooth bydist).smoothDistance
                p.1).getD 0 })) ∧
    ((specInterBins d smooth (rideTimeSecsOf d)).map Prod.fst).Nodup := by
  have hrw := recalc_state d smooth bydist hs hne h1 h2 h7
  have harg : smooth + ((((rideTimeSecsOf d + 1 - smooth).toNat : ℕ)) : ℤ) - 1
      = rideTimeSecsOf d := by omega
  refine ⟨?_, specInterBins_keys_nodup d smooth _⟩
  rw [hrw, recalcTail_markers, recalcTail_smoothDistance]
  rw [stateSpec_interList, harg, interSpec_eq_bins, List.map_map]
  congr 1
  apply List.map_congr_left
  intro p _
  simp only [Function.comp_apply]
  have hc : (⌈(60:ℚ) * (((p.1 : ℤ) : ℚ) / 60)⌉ : ℤ) = p.1 := by
    rw [show (60:ℚ) * (((p.1 : ℤ) : ℚ) / 60) = ((p.1 : ℤ) : ℚ) by field_simp]
    exact Int.ceil_intCast p.1
  rw [hc]

/-- Witness for C5 at the concrete ride exInter with window 1, by time. -/
theorem C5_interval_markers_witness :
    (recalc exInter 1 false).markers =
      some ((specInterBins exInter 1 (rideTimeSecsOf exInter)).map
        (fun p : ℤ × ℤ =>
          { key := ((p.1 : ℤ) : ℚ) / 60, label := p.2
            x := if !(false : Bool) then ((p.1 : ℤ) : ℚ) / 60
              else (listGetI (recalc exInter 1 false).smoothDistance
                p.1).getD 0 })) ∧
    ((specInterBins exInter 1 (rideTimeSecsOf exInter)).map Prod.fst).Nodup :=
  C5_interval_markers exInter 1 false exInter_sorted
    (by simp [exInter]) (le_refl 1)
    (by rw [exInter_rts]) (by rw [exInter_rts]; norm_num)

end AllPlot
